import Mathlib

/-!
Shallow embedding of the lrmdns authoritative DNS server (Rust sources under
src/) in Lean 4, together with theorems settling the specification claims.

Conventions of the embedding:
* machine integers are `Nat` (or `Int` for Rust `i32` fields), with explicit
  `% 2 ^ 32` where the Rust code relies on 32-bit wrap-around;
* bytes are `Nat` values below 256; byte strings are `List Nat`;
* domain names (hickory_proto `Name`) are lists of labels; hickory compares
  and hashes names case-insensitively, which we model by lowercasing at
  construction time so that structural equality coincides with hickory's
  name equality;
* `HashMap` fields become association lists (iteration order of a Rust
  `HashMap` is unspecified; the association list fixes one order);
* fallible Rust functions returning `anyhow::Result` become `Except String`;
* clock readings (`std::time::Instant`) become explicit `Nat` parameters in
  abstract time units where one second is `oneSecondUnits`;
* calls into external crates (sha2 hashes, serialization sizes) are taken as
  explicit function parameters, so every theorem quantifies over them.
-/

namespace Lrmdns

/-! String primitives. The Rust sources use `&str` methods; these are their
models, written by structural recursion over the character list so that the
kernel can evaluate them (the corresponding `String` library functions are
compiled and do not reduce definitionally). -/

/-- Lowercase every character (`str::to_lowercase` over ASCII). -/
def strToLower (s : String) : String :=
  ⟨s.data.map Char.toLower⟩

/-- Split a character list at every character satisfying `p`, keeping empty
segments. -/
def charSplitAux (p : Char → Bool) : List Char → List Char → List (List Char)
  | [], acc => [acc.reverse]
  | c :: rest, acc =>
    if p c then acc.reverse :: charSplitAux p rest []
    else charSplitAux p rest (c :: acc)

/-- Split a string at every character satisfying `p`, keeping empty
segments (`str::split`). -/
def splitChar (p : Char → Bool) (s : String) : List String :=
  (charSplitAux p s.data []).map (fun l => String.mk l)

/-- Split a string at every occurrence of one character. -/
def splitOnChar (c : Char) (s : String) : List String :=
  splitChar (fun x => x == c) s

/-- Trim leading and trailing whitespace (`str::trim`). -/
def strTrim (s : String) : String :=
  ⟨((s.data.dropWhile Char.isWhitespace).reverse.dropWhile
    Char.isWhitespace).reverse⟩

/-- Whether `s` starts with `pre` (`str::starts_with`). -/
def strStartsWith (s pre : String) : Bool :=
  pre.data.isPrefixOf s.data

/-- Whether `s` ends with `suf` (`str::ends_with`). -/
def strEndsWith (s suf : String) : Bool :=
  suf.data.isSuffixOf s.data

/-- Whether `s` contains the character `c` (`str::contains`). -/
def strContainsChar (s : String) (c : Char) : Bool :=
  s.data.contains c

/-- Remove every occurrence of one character (`str::replace(c, "")`). -/
def removeChar (c : Char) (s : String) : String :=
  ⟨s.data.filter (fun x => x != c)⟩

/-- Resource record types that appear in src/zone.rs and src/protocol.rs.
hickory stores an RRSIG rdata under the record type SIG (see the repository's
own test `test_rrsig_parsing`); RRSIG is kept as a separate mnemonic for the
textual parser. -/
inductive RecordType where
  | a
  | aaaa
  | ns
  | cname
  | soa
  | mx
  | txt
  | ptr
  | srv
  | caa
  | dnskey
  | sig
  | rrsig
  | nsec
  | ds
  | axfr
  deriving DecidableEq, Repr

/-- DS digest algorithms, mirroring hickory's `DigestType` values used by
src/dnssec.rs (`verify_ds` matches on SHA256, SHA384 and SHA512). -/
inductive DigestType where
  | sha1
  | sha256
  | sha384
  | sha512
  deriving DecidableEq, Repr

/-- Domain name: an ordered list of labels, stored lowercased (hickory
compares names case-insensitively; see the file header). The root name has
no labels. -/
structure Name where
  labels : List String
  deriving DecidableEq, Repr

/-- Wire length of a name: one length octet per label plus the label bytes,
plus the terminating root octet. -/
def Name.wireLength (n : Name) : Nat :=
  (n.labels.map (fun l => l.length + 1)).sum + 1

/-- Model of hickory `Name::from_labels`: rejects empty labels, labels over
63 octets and names over 255 octets of wire form. Labels are lowercased. -/
def Name.fromLabels (ls : List String) : Option Name :=
  if (∀ l ∈ ls, 1 ≤ l.length ∧ l.length ≤ 63) ∧
      ((ls.map (fun l => l.length + 1)).sum + 1 ≤ 255) then
    some ⟨ls.map strToLower⟩
  else
    none

/-- Model of hickory `Name::from_str`: `"."` is the root; a trailing dot is
stripped; the rest is split on dots into labels and validated as in
`Name.fromLabels`. -/
def Name.fromStr (s : String) : Option Name :=
  if s = "." then some ⟨[]⟩
  else
    let t := if strEndsWith s "." then s.dropRight 1 else s
    Name.fromLabels (splitOnChar '.' t)

/-- Textual form of a name as hickory's `Display` prints a fully qualified
name: labels joined by dots with a trailing dot (the root prints as "."). -/
def Name.toString (n : Name) : String :=
  String.intercalate "." n.labels ++ "."

/-- Model of hickory `Name::to_lowercase`. -/
def Name.toLowercase (n : Name) : Name :=
  ⟨n.labels.map strToLower⟩

/-- Canonical wire form of a name: each label as a length octet followed by
its bytes, terminated by the root octet (labels are treated as ASCII, which
covers every name this server parses from zone files). -/
def Name.wireFormat (n : Name) : List Nat :=
  (n.labels.map (fun l => l.length :: l.data.map Char.toNat)).flatten ++ [0]

/-- Model of hickory `Name::zone_of`: this name is the zone of `child` when
its labels are a suffix of the child's labels. -/
def Name.zoneOf (self child : Name) : Bool :=
  self.labels.isSuffixOf child.labels

/-- Model of hickory `Name::num_labels`: the number of labels, discounting a
leading wildcard label. -/
def Name.numLabels (n : Name) : Nat :=
  match n.labels with
  | "*" :: rest => rest.length
  | ls => ls.length

/-- SOA field block, from `struct SoaRecord` in src/zone.rs (refresh, retry
and expire are `i32` in the source). -/
structure SoaFields where
  mname : Name
  rname : Name
  serial : Nat
  refresh : Int
  retry : Int
  expire : Int
  minimum : Nat
  deriving DecidableEq, Repr

/-- RDATA sum type covering the hickory `RData` variants the server builds
(src/zone.rs). A DNSKEY is stored as hickory stores it: three flag booleans
plus algorithm and key bytes; `CAA` keeps the fields `new_issue` receives. -/
inductive RData where
  | a (octets : List Nat)
  | aaaa (groups : List Nat)
  | ns (nsdname : Name)
  | cname (target : Name)
  | soa (fields : SoaFields)
  | mx (preference : Nat) (exchange : Name)
  | txt (data : List String)
  | ptr (ptrdname : Name)
  | srv (priority weight port : Nat) (target : Name)
  | caa (issuerCritical : Bool) (issuer : Option Name)
  | dnskey (zoneKey secureEntryPoint revoke : Bool) (algorithm : Nat)
      (publicKey : List Nat)
  | sig (typeCovered : RecordType) (algorithm labelCount : Nat)
      (originalTtl sigExpiration sigInception keyTag : Nat)
      (signerName : Name) (signature : List Nat)
  | nsec (nextDomainName : Name) (typeBitMaps : List RecordType)
  | ds (keyTag algorithm : Nat) (digestType : DigestType) (digest : List Nat)
  deriving DecidableEq, Repr

/-- The record type determined by an RDATA value, as hickory's
`RData::record_type` reports it (an RRSIG rdata reports SIG). -/
def RData.recordType : RData → RecordType
  | .a _ => .a
  | .aaaa _ => .aaaa
  | .ns _ => .ns
  | .cname _ => .cname
  | .soa _ => .soa
  | .mx _ _ => .mx
  | .txt _ => .txt
  | .ptr _ => .ptr
  | .srv _ _ _ _ => .srv
  | .caa _ _ => .caa
  | .dnskey _ _ _ _ _ => .dnskey
  | .sig _ _ _ _ _ _ _ _ _ => .sig
  | .nsec _ _ => .nsec
  | .ds _ _ _ _ => .ds

/-- Resource record: `Record::from_rdata(name, ttl, rdata)`. -/
structure Record where
  name : Name
  ttl : Nat
  rdata : RData
  deriving DecidableEq, Repr

/-- The record's type, derived from the rdata as in hickory. -/
def Record.recordType (r : Record) : RecordType :=
  r.rdata.recordType

/-- Association-list lookup, standing in for `HashMap::get`. -/
def alistGet {α β : Type} [DecidableEq α] : List (α × β) → α → Option β
  | [], _ => none
  | (k, v) :: rest, key => if k = key then some v else alistGet rest key

/-- Push a record onto the per-type vector of a type-indexed map, standing in
for `entry(rtype).or_default().push(record)`. -/
def typeMapPush : List (RecordType × List Record) → RecordType → Record →
    List (RecordType × List Record)
  | [], rtype, record => [(rtype, [record])]
  | (k, v) :: rest, rtype, record =>
    if k = rtype then (k, v ++ [record]) :: rest
    else (k, v) :: typeMapPush rest rtype record

/-- Push a record onto the double-keyed index, standing in for
`records.entry(name).or_default().entry(rtype).or_default().push(record)`. -/
def nameMapPush : List (Name × List (RecordType × List Record)) → Name →
    RecordType → Record → List (Name × List (RecordType × List Record))
  | [], name, rtype, record => [(name, typeMapPush [] rtype record)]
  | (k, v) :: rest, name, rtype, record =>
    if k = name then (k, typeMapPush v rtype record) :: rest
    else (k, v) :: nameMapPush rest name rtype record

/-- Zone: origin, SOA fields and the double-keyed record index
(`struct Zone` in src/zone.rs). -/
structure Zone where
  origin : Name
  soa : SoaFields
  records : List (Name × List (RecordType × List Record))
  deriving DecidableEq, Repr

/-- Model of `Zone::new`. -/
def Zone.new (origin : Name) (soa : SoaFields) : Zone :=
  ⟨origin, soa, []⟩

/-- Model of `Zone::add_record`. -/
def Zone.addRecord (zone : Zone) (record : Record) : Zone :=
  { zone with
    records := nameMapPush zone.records record.name record.recordType record }

/-- Model of `Zone::lookup`: exact `(name, rtype)` index hit. -/
def Zone.lookup (zone : Zone) (name : Name) (rtype : RecordType) :
    Option (List Record) :=
  match alistGet zone.records name with
  | none => none
  | some typeMap => alistGet typeMap rtype

/-- Model of `Zone::contains_name`. -/
def Zone.containsName (zone : Zone) (name : Name) : Bool :=
  (alistGet zone.records name).isSome

/-- One step of the wildcard scan: build `*.suffix` via `Name::from_labels`
and look it up; a name-construction failure or a lookup miss both yield
`none` (the `if let Ok … && let Some …` in src/zone.rs). -/
def Zone.tryWildcard (zone : Zone) (rtype : RecordType)
    (suffix : List String) : Option (List Record) :=
  match Name.fromLabels ("*" :: suffix) with
  | some wildcardName => zone.lookup wildcardName rtype
  | none => none

/-- The wildcard scan over ever-shorter suffixes: for labels `b :: c :: …`
try `*.b.c.…`, then recurse on `c :: …` (the `for skip in 1..labels.len()`
loop of `Zone::lookup_wildcard`). -/
def Zone.wildcardScan (zone : Zone) (rtype : RecordType) :
    List String → Option (List Record)
  | [] => none
  | l :: rest =>
    match zone.tryWildcard rtype (l :: rest) with
    | some records => some records
    | none => zone.wildcardScan rtype rest

/-- Model of `Zone::lookup_wildcard`: scan the suffixes obtained by skipping
1, 2, … leading labels of the query name and return the first wildcard hit. -/
def Zone.lookupWildcard (zone : Zone) (name : Name) (rtype : RecordType) :
    Option (List Record) :=
  zone.wildcardScan rtype (name.labels.drop 1)

/-- Model of `Zone::get_soa_record`: synthesize the SOA record at the origin
with TTL equal to `soa.minimum`. -/
def Zone.getSoaRecord (zone : Zone) : Record :=
  ⟨zone.origin, zone.soa.minimum, RData.soa zone.soa⟩

/-- All records of the double-keyed index in its iteration order (the two
nested `values()` loops of `Zone::get_all_records`). -/
def Zone.flattenedRecords (zone : Zone) : List Record :=
  (zone.records.map (fun entry => (entry.2.map Prod.snd).flatten)).flatten

/-- Model of `Zone::get_all_records`: SOA first, every indexed record, SOA
last (AXFR shape). -/
def Zone.getAllRecords (zone : Zone) : List Record :=
  [zone.getSoaRecord] ++ zone.flattenedRecords ++ [zone.getSoaRecord]

/-- Zone store: map from origin to zone (`struct ZoneStore`). -/
structure ZoneStore where
  zones : List (Name × Zone)
  deriving DecidableEq, Repr

/-- Model of `ZoneStore::new`. -/
def ZoneStore.new : ZoneStore := ⟨[]⟩

/-- Insert or replace a zone by origin (`ZoneStore::add_zone`). -/
def ZoneStore.addZone (store : ZoneStore) (zone : Zone) : ZoneStore :=
  ⟨zoneInsert store.zones zone⟩
where
  zoneInsert : List (Name × Zone) → Zone → List (Name × Zone)
    | [], z => [(z.origin, z)]
    | (k, v) :: rest, z =>
      if k = z.origin then (k, z) :: rest else (k, v) :: zoneInsert rest z

/-- Model of `ZoneStore::find_zone`: exact origin hit first, otherwise the
zone whose origin is a suffix of the name with the strictly largest label
count (the accumulator starts at zero, exactly as `best_match_labels` does). -/
def ZoneStore.findZone (store : ZoneStore) (name : Name) : Option Zone :=
  match alistGet store.zones name with
  | some zone => some zone
  | none =>
    (store.zones.foldl
      (fun best entry =>
        let zone := entry.2
        if zone.origin.zoneOf name then
          if zone.origin.numLabels > best.2 then (some zone, zone.origin.numLabels)
          else best
        else best)
      ((none : Option Zone), 0)).1

/-- Client addresses for the rate limiter are opaque identifiers. -/
abbrev IpAddr := Nat

/-- One second of abstract time units (`Duration::from_secs(1)`). -/
def oneSecondUnits : Nat := 1000

/-- Sixty seconds of abstract time units (`Duration::from_secs(60)`). -/
def sixtySecondsUnits : Nat := 60000

/-- Per-client state of the rate limiter (`struct ClientState`). -/
structure ClientState where
  queries : List Nat
  deriving DecidableEq, Repr

/-- Rate limiter state behind the mutex (`struct RateLimiterInner`). -/
structure RateLimiterInner where
  clients : List (IpAddr × ClientState)
  maxQps : Nat
  window : Nat
  lastCleanup : Nat
  deriving DecidableEq, Repr

/-- Model of `RateLimiter::new`, taking the construction instant explicitly. -/
def RateLimiterInner.new (maxQps : Nat) (now : Nat) : RateLimiterInner :=
  ⟨[], maxQps, oneSecondUnits, now⟩

/-- The retain predicate of the sliding window:
`now.duration_since(timestamp) < window` (Instant subtraction saturates at
zero, as Nat subtraction does). -/
def inWindow (window now timestamp : Nat) : Bool :=
  now - timestamp < window

/-- The `clients.retain` body of `RateLimiterInner::cleanup`: drop expired
timestamps from every client and drop clients whose list becomes empty. -/
def cleanupClients (w now : Nat) (l : List (IpAddr × ClientState)) :
    List (IpAddr × ClientState) :=
  (l.map (fun entry =>
    (entry.1, ClientState.mk (entry.2.queries.filter (inWindow w now))))).filter
    (fun entry => !entry.2.queries.isEmpty)

/-- Model of `RateLimiterInner::cleanup`. -/
def RateLimiterInner.cleanup (inner : RateLimiterInner) (now : Nat) :
    RateLimiterInner :=
  { inner with clients := cleanupClients inner.window now inner.clients }

/-- Store a client's timestamp list, inserting the client if absent
(`clients.entry(addr).or_insert_with(…)` followed by in-place mutation). -/
def setClient : List (IpAddr × ClientState) → IpAddr → List Nat →
    List (IpAddr × ClientState)
  | [], addr, qs => [(addr, ⟨qs⟩)]
  | (k, v) :: rest, addr, qs =>
    if k = addr then (k, ⟨qs⟩) :: rest else (k, v) :: setClient rest addr qs

/-- The timestamps currently recorded for a client (empty when absent). -/
def clientQueries (inner : RateLimiterInner) (addr : IpAddr) : List Nat :=
  match alistGet inner.clients addr with
  | some c => c.queries
  | none => []

/-- The retain-and-decide phase of `RateLimiter::check_rate_limit`
(src/ratelimit.rs lines 45-71): drop the client's expired timestamps, deny
when at least `max_qps` remain, otherwise record `now` and allow. The
`entry(addr).or_insert_with` inserts the client when absent in both
outcomes, which `setClient` models. -/
def rateLimitRetain (inner : RateLimiterInner) (now : Nat) (addr : IpAddr) :
    Bool × RateLimiterInner :=
  let retained := (clientQueries inner addr).filter (inWindow inner.window now)
  if retained.length ≥ inner.maxQps then
    (false, { inner with clients := setClient inner.clients addr retained })
  else
    (true,
      { inner with clients := setClient inner.clients addr (retained ++ [now]) })

/-- Model of `RateLimiter::check_rate_limit`. The two `Instant::now()`
readings inside one call are modelled as the same instant `now`. Returns the
allow/deny verdict and the updated state. -/
def checkRateLimit (inner : RateLimiterInner) (now : Nat) (addr : IpAddr) :
    Bool × RateLimiterInner :=
  let inner :=
    if now - inner.lastCleanup > sixtySecondsUnits then
      { inner.cleanup now with lastCleanup := now }
    else inner
  rateLimitRetain inner now addr

/-- Run a sequence of `check_rate_limit` calls from one client at the given
instants, collecting the verdicts. -/
def runRateLimit (inner : RateLimiterInner) (addr : IpAddr) :
    List Nat → RateLimiterInner × List Bool
  | [] => (inner, [])
  | now :: rest =>
    let step := checkRateLimit inner now addr
    let tail := runRateLimit step.2 addr rest
    (tail.1, step.1 :: tail.2)

/-- DNS opcodes used by the server. -/
inductive OpCode where
  | query
  | status
  | notify
  | update
  deriving DecidableEq, Repr

/-- DNS response codes used by the server. -/
inductive ResponseCode where
  | noError
  | formErr
  | servFail
  | nxDomain
  | notImp
  | refused
  deriving DecidableEq, Repr

/-- Message type header bit (QR). -/
inductive MessageType where
  | queryMessage
  | response
  deriving DecidableEq, Repr

/-- A question entry (name and type; class is always IN in this server). -/
structure Question where
  name : Name
  qtype : RecordType
  deriving DecidableEq, Repr

/-- EDNS(0) OPT data the server reads and writes: advertised maximum payload,
version and the DO bit. -/
structure Edns where
  maxPayload : Nat
  version : Nat
  dnssecOk : Bool
  deriving DecidableEq, Repr

/-- A parsed DNS message (the hickory `Message` fields this server uses). -/
structure DnsMessage where
  id : Nat
  messageType : MessageType
  opCode : OpCode
  authoritative : Bool
  truncated : Bool
  recursionDesired : Bool
  recursionAvailable : Bool
  responseCode : ResponseCode
  queries : List Question
  answers : List Record
  nameServers : List Record
  additionals : List Record
  edns : Option Edns
  deriving DecidableEq, Repr

/-- Model of `Message::new()`: id zero, all flags clear, empty sections. -/
def DnsMessage.new : DnsMessage :=
  ⟨0, .queryMessage, .query, false, false, false, false, .noError,
    [], [], [], [], none⟩

/-- One iteration of the CNAME chase loop of `process_query`
(src/protocol.rs lines 127-149): the source first pushes the CNAME record
onto the answers and then, when its rdata is a CNAME whose target has
records of the queried type, pushes those as well; the net answer-section
effect is written here in one update per branch. -/
def chaseCnameStep (zone : Zone) (qtype : RecordType) (resp : DnsMessage)
    (cnameRecord : Record) : DnsMessage :=
  match cnameRecord.rdata with
  | RData.cname target =>
    match zone.lookup target qtype with
    | some targetRecords =>
      { resp with answers := resp.answers ++ [cnameRecord] ++ targetRecords }
    | none => { resp with answers := resp.answers ++ [cnameRecord] }
  | _ => { resp with answers := resp.answers ++ [cnameRecord] }

/-- The CNAME chase loop of `process_query` (src/protocol.rs lines
125-150). -/
def chaseCnames (zone : Zone) (qtype : RecordType)
    (cnameRecords : List Record) (response : DnsMessage) : DnsMessage :=
  cnameRecords.foldl (chaseCnameStep zone qtype) response

/-- The authoritative lookup of `process_query` (src/protocol.rs lines
98-170): exact (or wildcard) hit on the queried type, else the CNAME chase,
else NODATA or NXDOMAIN with the SOA as authority. -/
def answerSection (zone : Zone) (qname : Name) (qtype : RecordType)
    (response : DnsMessage) : DnsMessage :=
  let nameExists := zone.containsName qname
  let lookupResult :=
    if nameExists then zone.lookup qname qtype
    else zone.lookupWildcard qname qtype
  match lookupResult with
  | some records =>
    { response with
      answers := response.answers ++ records
      responseCode := ResponseCode.noError }
  | none =>
    let cnameResult :=
      if nameExists then zone.lookup qname RecordType.cname
      else zone.lookupWildcard qname RecordType.cname
    match cnameResult with
    | some cnameRecords =>
      { chaseCnames zone qtype cnameRecords response with
        responseCode := ResponseCode.noError }
    | none =>
      if nameExists then
        { response with
          responseCode := ResponseCode.noError
          nameServers := response.nameServers ++ [zone.getSoaRecord] }
      else
        { response with
          responseCode := ResponseCode.nxDomain
          nameServers := response.nameServers ++ [zone.getSoaRecord] }

/-- The positive-response authority step of `process_query` (src/protocol.rs
lines 172-179): on NOERROR with a non-empty answer section, append the
apex NS records when the zone has any. -/
def addApexNs (zone : Zone) (response : DnsMessage) : DnsMessage :=
  if response.responseCode = ResponseCode.noError ∧
      response.answers ≠ [] then
    match zone.lookup zone.origin RecordType.ns with
    | some nsRecords =>
      { response with nameServers := response.nameServers ++ nsRecords }
    | none => response
  else response

/-- The EDNS step of `process_query` (src/protocol.rs lines 181-192): when
the request carried an OPT record, attach one advertising a 4096-octet
payload, version 0, echoing the DO flag read from the request earlier in the
function. -/
def attachEdns (query response : DnsMessage) : DnsMessage :=
  let dnssecOk :=
    match query.edns with
    | some e => e.dnssecOk
    | none => false
  if query.edns.isSome then
    { response with edns := some ⟨4096, 0, dnssecOk⟩ }
  else response

/-- Model of `QueryProcessor::process_query` (src/protocol.rs). The zone
store snapshot is passed directly; the two `queries().first()` reads of the
source observe the same list and are merged into one match. -/
def processQuery (zones : ZoneStore) (query : DnsMessage) : DnsMessage :=
  let response :=
    { DnsMessage.new with
      id := query.id
      messageType := MessageType.response
      opCode := OpCode.query
      recursionDesired := query.recursionDesired
      recursionAvailable := false }
  if query.opCode ≠ OpCode.query then
    { response with responseCode := ResponseCode.notImp }
  else
    match query.queries.head? with
    | none => { response with responseCode := ResponseCode.formErr }
    | some question =>
      if question.qtype = RecordType.axfr then
        { response with queries := [question], authoritative := true }
      else
        let response := { response with queries := [question] }
        match zones.findZone question.name with
        | none => { response with responseCode := ResponseCode.refused }
        | some zone =>
          let response := { response with authoritative := true }
          attachEdns query
            (addApexNs zone
              (answerSection zone question.name question.qtype response))

/-- Big-endian bytes of a 16-bit value (`u16::to_be_bytes`). -/
def u16be (n : Nat) : List Nat :=
  [n / 256 % 256, n % 256]

/-- The DNSKEY flags word hickory reconstructs from its three flag booleans:
revoke is bit 15, zone-key bit 8, secure-entry-point bit 0. -/
def dnskeyFlags (zoneKey secureEntryPoint revoke : Bool) : Nat :=
  (if revoke then 0x8000 else 0) + (if zoneKey then 0x0100 else 0) +
    (if secureEntryPoint then 0x0001 else 0)

/-- The DNSKEY RDATA wire form built in src/dnssec.rs: flags big-endian,
protocol byte 3, algorithm byte, then the raw public key. -/
def dnskeyRdataWire (zoneKey secureEntryPoint revoke : Bool) (algorithm : Nat)
    (publicKey : List Nat) : List Nat :=
  u16be (dnskeyFlags zoneKey secureEntryPoint revoke) ++ [3, algorithm] ++
    publicKey

/-- The 32-bit accumulation loop of `compute_key_tag`: bytes at even index
contribute `byte << 8`, bytes at odd index contribute `byte`, in a wrapping
`u32` accumulator. -/
def keyTagAccumulate (bytes : List Nat) : Nat :=
  (bytes.foldl
    (fun st b =>
      (st.1 + 1,
        if st.1 % 2 = 0 then (st.2 + b * 256) % 2 ^ 32
        else (st.2 + b) % 2 ^ 32))
    ((0, 0) : Nat × Nat)).2

/-- Model of `compute_key_tag` (src/dnssec.rs lines 200-224). -/
def computeKeyTag (dnskey : Record) : Except String Nat :=
  match dnskey.rdata with
  | RData.dnskey zoneKey secureEntryPoint revoke algorithm publicKey =>
    let rdata := dnskeyRdataWire zoneKey secureEntryPoint revoke algorithm
      publicKey
    let ac := keyTagAccumulate rdata
    let ac := (ac + ((ac >>> 16) &&& 0xFFFF)) % 2 ^ 32
    Except.ok (ac &&& 0xFFFF)
  | _ => Except.error "Invalid DNSKEY record"

/-- The RFC 4034 Appendix B checksum exactly as the specification words it:
serialize the DNSKEY RDATA (flags big-endian, protocol byte 3, algorithm
byte, then the raw public key); accumulate in 32 bits adding `byte << 8` at
even index and `byte` at odd index; fold in `ac >> 16`; return the low 16
bits. -/
def keyTagDescribed (flags algorithm : Nat) (publicKey : List Nat) : Nat :=
  let rdata := u16be flags ++ [3, algorithm] ++ publicKey
  let ac :=
    (rdata.foldl
      (fun st b =>
        (st.1 + 1,
          if st.1 % 2 = 0 then (st.2 + b * 256) % 2 ^ 32
          else (st.2 + b) % 2 ^ 32))
      ((0, 0) : Nat × Nat)).2
  let ac := (ac + ac >>> 16) % 2 ^ 32
  ac % 65536

/-- Model of `verify_ds` (src/dnssec.rs lines 33-115). The SHA-256, SHA-384
and SHA-512 digests are computed by the external sha2 crate and enter the
embedding as explicit function parameters over byte lists. -/
def verifyDS (sha256f sha384f sha512f : List Nat → List Nat)
    (ds dnskey : Record) : Except String Unit :=
  match ds.rdata with
  | RData.ds dsKeyTag dsAlgorithm digestType dsDigest =>
    match dnskey.rdata with
    | RData.dnskey zoneKey secureEntryPoint revoke algorithm publicKey =>
      if dsAlgorithm ≠ algorithm then
        Except.error "Algorithm mismatch"
      else
        match computeKeyTag dnskey with
        | Except.error e => Except.error e
        | Except.ok computedKeyTag =>
          if dsKeyTag ≠ computedKeyTag then
            Except.error "Key tag mismatch"
          else
            let ownerName := dnskey.name.toLowercase
            let digestInput := ownerName.wireFormat ++
              dnskeyRdataWire zoneKey secureEntryPoint revoke algorithm
                publicKey
            let computedDigest :=
              match digestType with
              | DigestType.sha256 => some (sha256f digestInput)
              | DigestType.sha384 => some (sha384f digestInput)
              | DigestType.sha512 => some (sha512f digestInput)
              | DigestType.sha1 => none
            match computedDigest with
            | none => Except.error "Unsupported digest type"
            | some digest =>
              if digest ≠ dsDigest then Except.error "DS digest mismatch"
              else Except.ok ()
    | _ => Except.error "Invalid DNSKEY record"
  | _ => Except.error "Invalid DS record"

/-- The standard DNS UDP limit (`MAX_DNS_PACKET_SIZE` in src/server.rs). -/
def maxDnsPacketSize : Nat := 512

/-- The UDP size limit computed by `handle_udp_query` (src/server.rs lines
224-229): the max payload of the RESPONSE's OPT record when present,
otherwise 512. -/
def maxUdpSize (response : DnsMessage) : Nat :=
  match response.edns with
  | some e => e.maxPayload
  | none => maxDnsPacketSize

/-- The truncation cascade of `handle_udp_query` (src/server.rs lines
239-285). `take_answers` and its siblings clear the whole section, so each
`while` loop runs its body at most once; the wire size of a message comes
from the external serializer and is passed as a function parameter. -/
def udpTruncate (wireSize : DnsMessage → Nat) (response : DnsMessage)
    (maxUdp : Nat) : DnsMessage :=
  let t := { response with truncated := true }
  let afterAnswers := { t with answers := [] }
  if t.answers ≠ [] ∧ wireSize afterAnswers ≤ maxUdp then afterAnswers
  else
    let t := if t.answers ≠ [] then afterAnswers else t
    let afterAuthority := { t with nameServers := [] }
    if t.nameServers ≠ [] ∧ wireSize afterAuthority ≤ maxUdp then
      afterAuthority
    else
      let t := if t.nameServers ≠ [] then afterAuthority else t
      let afterAdditionals := { t with additionals := [] }
      if t.additionals ≠ [] ∧ wireSize afterAdditionals ≤ maxUdp then
        afterAdditionals
      else
        if t.additionals ≠ [] then afterAdditionals else t

/-- The datagram `handle_udp_query` sends for a processed response: the
response itself when its serialized form fits `maxUdpSize response`, else
the result of the truncation cascade. -/
def handleUdpResponse (wireSize : DnsMessage → Nat) (response : DnsMessage) :
    DnsMessage :=
  if wireSize response > maxUdpSize response then
    udpTruncate wireSize response (maxUdpSize response)
  else response

/-- One message of the AXFR stream (src/server.rs lines 478-484): the query
id, response + opcode QUERY, AA set, the original question, and a single
record as the answer. -/
def axfrMessage (queryId : Nat) (question : Question) (record : Record) :
    DnsMessage :=
  { DnsMessage.new with
    id := queryId
    messageType := MessageType.response
    opCode := OpCode.query
    authoritative := true
    queries := [question]
    answers := [record] }

/-- The full AXFR stream written by `handle_tcp_connection` for a served
zone: one message per record of `get_all_records`, in order. -/
def axfrStream (queryId : Nat) (question : Question) (zone : Zone) :
    List DnsMessage :=
  zone.getAllRecords.map (axfrMessage queryId question)

/-- Strip an inline comment: keep the text before the first `;` unless an odd
number of double quotes precedes it (then the `;` sits inside a string and
the line is kept whole), as in `preprocess_zone_content`. -/
def stripInlineComment (line : String) : String :=
  match splitOnChar ';' line with
  | [] => line
  | [_] => line
  | before :: _ =>
    if before.data.count '"' % 2 = 1 then line else before

/-- Model of `preprocess_zone_content` (src/zone.rs lines 216-277): one pass
over physical lines that strips comments, joins parenthesized multi-line
records into one logical line and drops blank lines. -/
def preprocessZoneContent (content : String) : List String :=
  let step := fun (st : List String × String × Bool) (line : String) =>
    let result := st.1
    let currentLine := st.2.1
    let inParens := st.2.2
    let trimmed := strTrim (stripInlineComment line)
    if strContainsChar trimmed '(' then
      (result, currentLine ++ (strTrim (removeChar '(' trimmed)) ++ " ", true)
    else if strContainsChar trimmed ')' then
      (result ++ [strTrim (currentLine ++ strTrim (removeChar ')' trimmed))],
        "", false)
    else if inParens then
      (result, currentLine ++ trimmed ++ " ", inParens)
    else if trimmed ≠ "" then
      (result ++ [trimmed], currentLine, inParens)
    else
      (result, currentLine, inParens)
  let final := (splitOnChar '\n' content).foldl step ([], "", false)
  if final.2.1 ≠ "" then final.1 ++ [strTrim final.2.1] else final.1

/-- Whitespace-separated tokens of a line (`str::split_whitespace`). -/
def splitWhitespace (s : String) : List String :=
  (splitChar Char.isWhitespace s).filter (fun t => t ≠ "")

/-- Model of Rust unsigned integer parsing (`str::parse`): an optional `+`,
then decimal digits, failing above the exclusive bound. -/
def parseUnsigned (bound : Nat) (s : String) : Option Nat :=
  let t := if strStartsWith s "+" then s.drop 1 else s
  if t ≠ "" ∧ t.data.all Char.isDigit then
    let v := t.data.foldl (fun a c => a * 10 + (c.toNat - 48)) 0
    if v < bound then some v else none
  else none

/-- Model of Rust `i32` parsing. -/
def parseI32 (s : String) : Option Int :=
  if strStartsWith s "-" then
    match parseUnsigned (2 ^ 31 + 1) (s.drop 1) with
    | some v => some (-(v : Int))
    | none => none
  else
    (parseUnsigned (2 ^ 31) s).map Int.ofNat

/-- One dotted-decimal IPv4 octet (Rust rejects leading zeros). -/
def parseIpv4Octet (s : String) : Option Nat :=
  if s ≠ "" ∧ s.data.all Char.isDigit ∧
      (s.length = 1 ∨ ¬strStartsWith s "0") then
    let v := s.data.foldl (fun a c => a * 10 + (c.toNat - 48)) 0
    if v ≤ 255 then some v else none
  else none

/-- Model of `Ipv4Addr` text parsing: four dotted-decimal octets. -/
def parseIpv4 (s : String) : Option (List Nat) :=
  match (splitOnChar '.' s).mapM parseIpv4Octet with
  | some octets => if octets.length = 4 then some octets else none
  | none => none

/-- Value of one hexadecimal digit. -/
def hexDigitVal (c : Char) : Option Nat :=
  if '0' ≤ c ∧ c ≤ '9' then some (c.toNat - 48)
  else if 'a' ≤ c ∧ c ≤ 'f' then some (c.toNat - 87)
  else if 'A' ≤ c ∧ c ≤ 'F' then some (c.toNat - 55)
  else none

/-- One 16-bit hexadecimal group of an IPv6 address. -/
def parseHexGroup (s : String) : Option Nat :=
  if s ≠ "" ∧ s.length ≤ 4 then
    (s.data.mapM hexDigitVal).map (fun ds => ds.foldl (fun a d => a * 16 + d) 0)
  else none

/-- Split a character list at the first `::`, when present. -/
def findDoubleColon : List Char → Option (List Char × List Char)
  | [] => none
  | ':' :: ':' :: rest => some ([], rest)
  | c :: rest => (findDoubleColon rest).map (fun p => (c :: p.1, p.2))

/-- Model of `Ipv6Addr` text parsing as eight 16-bit groups, with one `::`
zero-run abbreviation (the embedded-IPv4 tail forms are not modelled; the
server never constructs them). -/
def parseIpv6 (s : String) : Option (List Nat) :=
  match findDoubleColon s.data with
  | none =>
    match (splitOnChar ':' s).mapM parseHexGroup with
    | some gs => if gs.length = 8 then some gs else none
    | none => none
  | some (l, r) =>
    if (findDoubleColon r).isSome then none
    else
      let lg :=
        if l = [] then some []
        else (splitOnChar ':' ⟨l⟩).mapM parseHexGroup
      let rg :=
        if r = [] then some []
        else (splitOnChar ':' ⟨r⟩).mapM parseHexGroup
      match lg, rg with
      | some a, some b =>
        if a.length + b.length ≤ 7 then
          some (a ++ List.replicate (8 - a.length - b.length) 0 ++ b)
        else none
      | _, _ => none

/-- Value of one character of the standard base64 alphabet. -/
def b64Val (c : Char) : Option Nat :=
  if 'A' ≤ c ∧ c ≤ 'Z' then some (c.toNat - 65)
  else if 'a' ≤ c ∧ c ≤ 'z' then some (c.toNat - 71)
  else if '0' ≤ c ∧ c ≤ '9' then some (c.toNat + 4)
  else if c = '+' then some 62
  else if c = '/' then some 63
  else none

/-- Decode four-character base64 chunks with trailing `=` padding (model of
the base64 crate's STANDARD engine). -/
def base64DecodeChunks : List Char → Option (List Nat)
  | [] => some []
  | c1 :: c2 :: c3 :: c4 :: rest =>
    match b64Val c1, b64Val c2 with
    | some v1, some v2 =>
      if c3 = '=' then
        if c4 = '=' ∧ rest = [] then some [v1 * 4 + v2 / 16] else none
      else
        match b64Val c3 with
        | some v3 =>
          if c4 = '=' then
            if rest = [] then
              some [v1 * 4 + v2 / 16, v2 % 16 * 16 + v3 / 4]
            else none
          else
            match b64Val c4 with
            | some v4 =>
              match base64DecodeChunks rest with
              | some tail =>
                some ([v1 * 4 + v2 / 16, v2 % 16 * 16 + v3 / 4,
                  v3 % 4 * 64 + v4] ++ tail)
              | none => none
            | none => none
        | none => none
    | _, _ => none
  | _ => none

/-- Decode a standard base64 string to bytes. -/
def base64Decode (s : String) : Option (List Nat) :=
  base64DecodeChunks s.data

/-- Decode pairs of hexadecimal digits to bytes (model of `hex::decode`). -/
def hexDecodePairs : List Char → Option (List Nat)
  | [] => some []
  | c1 :: c2 :: rest =>
    match hexDigitVal c1, hexDigitVal c2, hexDecodePairs rest with
    | some h, some l, some tail => some ((h * 16 + l) :: tail)
    | _, _, _ => none
  | _ => none

/-- Decode a hexadecimal string to bytes. -/
def hexDecode (s : String) : Option (List Nat) :=
  hexDecodePairs s.data

/-- Strip all leading and trailing double quotes (`str::trim_matches('"')`). -/
def trimQuotes (s : String) : String :=
  ⟨((s.data.dropWhile (· = '"')).reverse.dropWhile (· = '"')).reverse⟩

/-- Model of hickory `RecordType::from_str` restricted to the mnemonics this
server can store. -/
def RecordType.fromStr (s : String) : Option RecordType :=
  match s with
  | "A" => some .a
  | "AAAA" => some .aaaa
  | "NS" => some .ns
  | "CNAME" => some .cname
  | "SOA" => some .soa
  | "MX" => some .mx
  | "TXT" => some .txt
  | "PTR" => some .ptr
  | "SRV" => some .srv
  | "CAA" => some .caa
  | "DNSKEY" => some .dnskey
  | "SIG" => some .sig
  | "RRSIG" => some .rrsig
  | "NSEC" => some .nsec
  | "DS" => some .ds
  | "AXFR" => some .axfr
  | _ => none

/-- Model of hickory `DigestType::from_u8` over the IANA registry values the
server can serve (1 SHA-1, 2 SHA-256, 4 SHA-384); other values error, which
`parse_resource_record` propagates with `?`. -/
def DigestType.fromU8 (n : Nat) : Except String DigestType :=
  match n with
  | 1 => Except.ok DigestType.sha1
  | 2 => Except.ok DigestType.sha256
  | 4 => Except.ok DigestType.sha384
  | _ => Except.error "unsupported digest type"

/-- Model of `parse_domain_name`: absolute names parse directly, relative
names are suffixed with the current origin. -/
def parseDomainName (s : String) (origin : Name) : Except String Name :=
  if strEndsWith s "." then
    match Name.fromStr s with
    | some n => Except.ok n
    | none => Except.error "invalid domain name"
  else
    match Name.fromStr (s ++ "." ++ origin.toString) with
    | some n => Except.ok n
    | none => Except.error "invalid domain name"

/-- Lift an optional value into `Except` with an error message. -/
def orErr {α : Type} (o : Option α) (msg : String) : Except String α :=
  match o with
  | some a => Except.ok a
  | none => Except.error msg

/-- The root name (`Name::root`). -/
def rootName : Name := ⟨[]⟩

/-- Model of `parse_resource_record` (src/zone.rs lines 279-641). Returns
`ok none` for the soft skips of the source (fewer than four tokens, missing
RDATA tokens, base64/hex decode failures, unknown record types) and an error
for its hard failures. -/
def parseResourceRecord (line : String) (origin : Name)
    (defaultTtl lineNum : Nat) : Except String (Option Record) := do
  let parts := splitWhitespace line
  if parts.length < 4 then return none
  let lineStr := toString (lineNum + 1)
  let nameTok := parts.getD 0 ""
  let name ←
    if nameTok = "@" then pure origin
    else if nameTok = "*" then
      orErr (Name.fromStr ("*." ++ origin.toString))
        ("Invalid wildcard name on line " ++ lineStr)
    else if strStartsWith nameTok "*." then
      if strEndsWith nameTok "." then
        orErr (Name.fromStr nameTok)
          ("Invalid wildcard name on line " ++ lineStr)
      else
        orErr (Name.fromStr (nameTok ++ "." ++ origin.toString))
          ("Invalid wildcard name on line " ++ lineStr)
    else if strEndsWith nameTok "." then
      orErr (Name.fromStr nameTok) ("Invalid name on line " ++ lineStr)
    else
      orErr (Name.fromStr (nameTok ++ "." ++ origin.toString))
        ("Invalid name on line " ++ lineStr)
  let ttlAndIdx : Nat × Nat :=
    match parseUnsigned (2 ^ 32) (parts.getD 1 "") with
    | some v => (v, 2)
    | none => (defaultTtl, 1)
  let ttl := ttlAndIdx.1
  let idx := ttlAndIdx.2
  let idx := if parts.getD idx "" = "IN" then idx + 1 else idx
  let rtype := parts.getD idx ""
  let args := parts.drop (idx + 1)
  let rdataOpt : Except String (Option RData) :=
    match rtype with
    | "A" => do
      if args.length < 1 then return none
      let octets ← orErr (parseIpv4 (args.getD 0 ""))
        ("Invalid A record on line " ++ lineStr)
      return some (RData.a octets)
    | "AAAA" => do
      if args.length < 1 then return none
      let groups ← orErr (parseIpv6 (args.getD 0 ""))
        ("Invalid AAAA record on line " ++ lineStr)
      return some (RData.aaaa groups)
    | "NS" => do
      if args.length < 1 then return none
      match parseDomainName (args.getD 0 "") origin with
      | Except.error _ => Except.error ("Invalid NS record on line " ++ lineStr)
      | Except.ok nsdname => return some (RData.ns nsdname)
    | "SOA" => do
      if args.length < 7 then return none
      let mname ← parseDomainName (args.getD 0 "") origin
      let rname ← parseDomainName (args.getD 1 "") origin
      let serial ← orErr (parseUnsigned (2 ^ 32) (args.getD 2 ""))
        ("Invalid SOA serial on line " ++ lineStr)
      let refresh ← orErr (parseI32 (args.getD 3 ""))
        ("Invalid SOA refresh on line " ++ lineStr)
      let retry ← orErr (parseI32 (args.getD 4 ""))
        ("Invalid SOA retry on line " ++ lineStr)
      let expire ← orErr (parseI32 (args.getD 5 ""))
        ("Invalid SOA expire on line " ++ lineStr)
      let minimum ← orErr (parseUnsigned (2 ^ 32) (args.getD 6 ""))
        ("Invalid SOA minimum on line " ++ lineStr)
      return some (RData.soa ⟨mname, rname, serial, refresh, retry, expire,
        minimum⟩)
    | "CNAME" => do
      if args.length < 1 then return none
      match parseDomainName (args.getD 0 "") origin with
      | Except.error _ =>
        Except.error ("Invalid CNAME record on line " ++ lineStr)
      | Except.ok target => return some (RData.cname target)
    | "MX" => do
      if args.length < 2 then return none
      let preference ← orErr (parseUnsigned (2 ^ 16) (args.getD 0 ""))
        ("Invalid MX preference on line " ++ lineStr)
      match parseDomainName (args.getD 1 "") origin with
      | Except.error _ =>
        Except.error ("Invalid MX exchange on line " ++ lineStr)
      | Except.ok exchange => return some (RData.mx preference exchange)
    | "TXT" => do
      if args.length < 1 then return none
      let txtData := trimQuotes (String.intercalate " " args)
      return some (RData.txt [txtData])
    | "PTR" => do
      if args.length < 1 then return none
      match parseDomainName (args.getD 0 "") origin with
      | Except.error _ =>
        Except.error ("Invalid PTR record on line " ++ lineStr)
      | Except.ok ptrdname => return some (RData.ptr ptrdname)
    | "SRV" => do
      if args.length < 4 then return none
      let priority ← orErr (parseUnsigned (2 ^ 16) (args.getD 0 ""))
        ("Invalid SRV priority on line " ++ lineStr)
      let weight ← orErr (parseUnsigned (2 ^ 16) (args.getD 1 ""))
        ("Invalid SRV weight on line " ++ lineStr)
      let port ← orErr (parseUnsigned (2 ^ 16) (args.getD 2 ""))
        ("Invalid SRV port on line " ++ lineStr)
      match parseDomainName (args.getD 3 "") origin with
      | Except.error _ =>
        Except.error ("Invalid SRV target on line " ++ lineStr)
      | Except.ok target =>
        return some (RData.srv priority weight port target)
    | "CAA" => do
      if args.length < 3 then return none
      let flags ← orErr (parseUnsigned (2 ^ 8) (args.getD 0 ""))
        ("Invalid CAA flags on line " ++ lineStr)
      let tag := args.getD 1 ""
      let value := trimQuotes (String.intercalate " " (args.drop 2))
      let issuerCritical := flags &&& 0x80 ≠ 0
      let issuer : Option Name :=
        if tag = "issue" ∨ tag = "issuewild" then
          if value = "" ∨ value = ";" then none
          else
            match Name.fromStr value with
            | some n => some n
            | none => some rootName
        else none
      return some (RData.caa issuerCritical issuer)
    | "DNSKEY" => do
      if args.length < 4 then return none
      let flags ← orErr (parseUnsigned (2 ^ 16) (args.getD 0 ""))
        ("Invalid DNSKEY flags on line " ++ lineStr)
      let _protocol ← orErr (parseUnsigned (2 ^ 8) (args.getD 1 ""))
        ("Invalid DNSKEY protocol on line " ++ lineStr)
      let algorithm ← orErr (parseUnsigned (2 ^ 8) (args.getD 2 ""))
        ("Invalid DNSKEY algorithm on line " ++ lineStr)
      match base64Decode (String.join (args.drop 3)) with
      | none => return none
      | some publicKey =>
        return some (RData.dnskey (flags &&& 0x0100 ≠ 0) (flags &&& 0x0001 ≠ 0)
          (flags &&& 0x8000 ≠ 0) algorithm publicKey)
    | "RRSIG" => do
      if args.length < 9 then return none
      let typeCovered ← orErr (RecordType.fromStr (args.getD 0 ""))
        ("Invalid RRSIG type_covered on line " ++ lineStr)
      let algorithm ← orErr (parseUnsigned (2 ^ 8) (args.getD 1 ""))
        ("Invalid RRSIG algorithm on line " ++ lineStr)
      let labelCount ← orErr (parseUnsigned (2 ^ 8) (args.getD 2 ""))
        ("Invalid RRSIG labels on line " ++ lineStr)
      let originalTtl ← orErr (parseUnsigned (2 ^ 32) (args.getD 3 ""))
        ("Invalid RRSIG original_ttl on line " ++ lineStr)
      let sigExpiration ← orErr (parseUnsigned (2 ^ 32) (args.getD 4 ""))
        ("Invalid RRSIG sig_expiration on line " ++ lineStr)
      let sigInception ← orErr (parseUnsigned (2 ^ 32) (args.getD 5 ""))
        ("Invalid RRSIG sig_inception on line " ++ lineStr)
      let keyTag ← orErr (parseUnsigned (2 ^ 16) (args.getD 6 ""))
        ("Invalid RRSIG key_tag on line " ++ lineStr)
      match parseDomainName (args.getD 7 "") origin with
      | Except.error _ =>
        Except.error ("Invalid RRSIG signer_name on line " ++ lineStr)
      | Except.ok signerName =>
        match base64Decode (String.join (args.drop 8)) with
        | none => return none
        | some signature =>
          return some (RData.sig typeCovered algorithm labelCount originalTtl
            sigExpiration sigInception keyTag signerName signature)
    | "NSEC" => do
      if args.length < 2 then return none
      match parseDomainName (args.getD 0 "") origin with
      | Except.error _ =>
        Except.error ("Invalid NSEC next_domain_name on line " ++ lineStr)
      | Except.ok nextDomainName =>
        let typeBitMaps := (args.drop 1).filterMap RecordType.fromStr
        return some (RData.nsec nextDomainName typeBitMaps)
    | "DS" => do
      if args.length < 4 then return none
      let keyTag ← orErr (parseUnsigned (2 ^ 16) (args.getD 0 ""))
        ("Invalid DS key_tag on line " ++ lineStr)
      let algorithm ← orErr (parseUnsigned (2 ^ 8) (args.getD 1 ""))
        ("Invalid DS algorithm on line " ++ lineStr)
      let digestTypeNum ← orErr (parseUnsigned (2 ^ 8) (args.getD 2 ""))
        ("Invalid DS digest_type on line " ++ lineStr)
      let digestType ← DigestType.fromU8 digestTypeNum
      match hexDecode (String.join (args.drop 3)) with
      | none => return none
      | some digest =>
        return some (RData.ds keyTag algorithm digestType digest)
    | _ => return none
  match ← rdataOpt with
  | none => return none
  | some rdata => return some ⟨name, ttl, rdata⟩

/-- Extract the SOA field block from a record (`extract_soa_data`). -/
def extractSoaData (record : Record) : Option SoaFields :=
  match record.rdata with
  | RData.soa fields => some fields
  | _ => none

/-- One iteration of the `parse_zone_file` loop over logical lines. The state
is the optional zone under construction, the default TTL and the current
origin; `origin` is the origin the function was called with, which is the one
a new zone is created at. -/
def parseZoneStep (origin : Name) (st : Option Zone × Nat × Name)
    (lineNum : Nat) (rawLine : String) :
    Except String (Option Zone × Nat × Name) :=
  let zone := st.1
  let defaultTtl := st.2.1
  let currentOrigin := st.2.2
  let line := strTrim rawLine
  if line = "" ∨ strStartsWith line ";" then Except.ok st
  else if strStartsWith line "$" then
    if strStartsWith line "$ORIGIN" then
      let parts := splitWhitespace line
      if parts.length ≥ 2 then
        match Name.fromStr (parts.getD 1 "") with
        | some n => Except.ok (zone, defaultTtl, n)
        | none =>
          Except.error ("Invalid $ORIGIN on line " ++ toString (lineNum + 1))
      else Except.ok st
    else if strStartsWith line "$TTL" then
      let parts := splitWhitespace line
      if parts.length ≥ 2 then
        match parseUnsigned (2 ^ 32) (parts.getD 1 "") with
        | some v => Except.ok (zone, v, currentOrigin)
        | none =>
          Except.error ("Invalid $TTL on line " ++ toString (lineNum + 1))
      else Except.ok st
    else Except.ok st
  else
    match parseResourceRecord line currentOrigin defaultTtl lineNum with
    | Except.error e => Except.error e
    | Except.ok none => Except.ok st
    | Except.ok (some record) =>
      let zone :=
        if record.recordType = RecordType.soa ∧ zone.isNone then
          match extractSoaData record with
          | some soaData => some (Zone.new origin soaData)
          | none => zone
        else zone
      match zone with
      | some z => Except.ok (some (z.addRecord record), defaultTtl,
          currentOrigin)
      | none => Except.ok (none, defaultTtl, currentOrigin)

/-- The `parse_zone_file` loop over numbered logical lines. -/
def parseZoneLines (origin : Name) :
    List (Nat × String) → (Option Zone × Nat × Name) →
    Except String (Option Zone × Nat × Name)
  | [], st => Except.ok st
  | (lineNum, line) :: rest, st =>
    match parseZoneStep origin st lineNum line with
    | Except.error e => Except.error e
    | Except.ok st2 => parseZoneLines origin rest st2

/-- Model of `parse_zone_file` (src/zone.rs lines 156-212), over the file's
content rather than its path (reading the file is I/O outside the core). -/
def parseZoneFile (content : String) (originName : String) :
    Except String Zone :=
  match Name.fromStr originName with
  | none => Except.error "Invalid origin name"
  | some origin =>
    let processedLines := preprocessZoneContent content
    match parseZoneLines origin processedLines.enum (none, 3600, origin) with
    | Except.error e => Except.error e
    | Except.ok (some zone, _, _) => Except.ok zone
    | Except.ok (none, _, _) =>
      Except.error "Zone file must contain an SOA record"

/-! Concrete fixtures used by counterexamples and witnesses. They mirror the
seed zone of the repository's own tests (`example.com.` with an SOA, a
`www` A record and a wildcard `*.example.com.` A record). -/

/-- The `example.com.` origin. -/
def exampleCom : Name := ⟨["example", "com"]⟩

/-- The `example.org.` name (not served by any fixture store). -/
def exampleOrg : Name := ⟨["example", "org"]⟩

/-- SOA fields of the fixture zone. -/
def soaEx : SoaFields :=
  ⟨⟨["ns1", "example", "com"]⟩, ⟨["admin", "example", "com"]⟩,
    2025120601, 7200, 3600, 1209600, 86400⟩

/-- The wildcard name `*.example.com.`. -/
def wildEx : Name := ⟨["*", "example", "com"]⟩

/-- The name `www.example.com.`. -/
def wwwEx : Name := ⟨["www", "example", "com"]⟩

/-- The name `random.example.com.`. -/
def randomEx : Name := ⟨["random", "example", "com"]⟩

/-- The name `sub.example.com.`. -/
def subEx : Name := ⟨["sub", "example", "com"]⟩

/-- The name `a.sub.example.com.`. -/
def aSubEx : Name := ⟨["a", "sub", "example", "com"]⟩

/-- Wildcard A record `*.example.com. 3600 A 192.0.2.100`. -/
def wildARecord : Record := ⟨wildEx, 3600, RData.a [192, 0, 2, 100]⟩

/-- A record `www.example.com. 3600 A 192.0.2.1`. -/
def wwwARecord : Record := ⟨wwwEx, 3600, RData.a [192, 0, 2, 1]⟩

/-- TXT record at `sub.example.com.`, making it an existing non-wildcard
node. -/
def subTxtRecord : Record := ⟨subEx, 3600, RData.txt ["blocker"]⟩

/-- Fixture zone with only the wildcard record. -/
def zoneWild : Zone := (Zone.new exampleCom soaEx).addRecord wildARecord

/-- Fixture store serving `zoneWild`. -/
def storeWild : ZoneStore := ZoneStore.new.addZone zoneWild

/-- Fixture zone with the wildcard record and an existing node
`sub.example.com.` between the wildcard parent and the query name
`a.sub.example.com.`. -/
def zoneBlocked : Zone :=
  ((Zone.new exampleCom soaEx).addRecord wildARecord).addRecord subTxtRecord

/-- Fixture zone with the `www` A record only. -/
def zoneWww : Zone := (Zone.new exampleCom soaEx).addRecord wwwARecord

/-- Fixture store serving `zoneWww`. -/
def storeWww : ZoneStore := ZoneStore.new.addZone zoneWww

/-- Query `random.example.com. A` (wildcard synthesis case). -/
def queryRandomA : DnsMessage :=
  { DnsMessage.new with
    id := 1111
    opCode := OpCode.query
    queries := [⟨randomEx, RecordType.a⟩] }

/-- Query `www.example.com. A` with opcode UPDATE. -/
def queryUpdateOpcode : DnsMessage :=
  { DnsMessage.new with
    id := 4444
    opCode := OpCode.update
    queries := [⟨wwwEx, RecordType.a⟩] }

/-- AXFR query for the unserved zone `example.org.`. -/
def queryAxfrUnserved : DnsMessage :=
  { DnsMessage.new with
    id := 9000
    opCode := OpCode.query
    queries := [⟨exampleOrg, RecordType.axfr⟩] }

/-- Query `www.example.com. A` carrying an OPT record that advertises a
client maximum payload of 512 octets. -/
def queryEdns512 : DnsMessage :=
  { DnsMessage.new with
    id := 77
    opCode := OpCode.query
    queries := [⟨wwwEx, RecordType.a⟩]
    edns := some ⟨512, 0, false⟩ }

/-- The name `nope.example.com.` (absent from every fixture zone). -/
def nopeEx : Name := ⟨["nope", "example", "com"]⟩

/-- Query `nope.example.com. A` (NXDOMAIN case against `zoneWww`). -/
def queryNopeA : DnsMessage :=
  { DnsMessage.new with
    id := 5678
    opCode := OpCode.query
    queries := [⟨nopeEx, RecordType.a⟩] }

/-- Query `www.example.com. A` with opcode QUERY. -/
def queryWwwA : DnsMessage :=
  { DnsMessage.new with
    id := 1234
    opCode := OpCode.query
    recursionDesired := true
    queries := [⟨wwwEx, RecordType.a⟩] }

/-- A zone file whose NS record line precedes the SOA line. -/
def zoneContentSoaLate : String :=
  "$ORIGIN example.com.\n@ IN NS ns1.example.com.\n@ IN SOA ns1.example.com. admin.example.com. 1 7200 3600 1209600 86400\n"

/-! Theorems. Helper lemmas come first, then one theorem per claim (with a
witness or counterexample where required). -/

theorem and_ffff_eq_mod (x : Nat) : x &&& 0xFFFF = x % 65536 := by
  have h := Nat.and_pow_two_sub_one_eq_mod x 16
  norm_num at h
  exact h

theorem keyTagAccumulate_fold_lt (bytes : List Nat) :
    ∀ st : Nat × Nat, st.2 < 2 ^ 32 →
    (bytes.foldl
      (fun st b =>
        (st.1 + 1,
          if st.1 % 2 = 0 then (st.2 + b * 256) % 2 ^ 32
          else (st.2 + b) % 2 ^ 32))
      st).2 < 2 ^ 32 := by
  induction bytes with
  | nil => intro st h; simpa using h
  | cons b rest ih =>
    intro st h
    simp only [List.foldl_cons]
    apply ih
    dsimp only
    split <;> exact Nat.mod_lt _ (by norm_num)

theorem keyTagAccumulate_lt (bytes : List Nat) :
    keyTagAccumulate bytes < 2 ^ 32 :=
  keyTagAccumulate_fold_lt bytes (0, 0) (by norm_num)

/-- C8: `compute_key_tag` equals the RFC 4034 Appendix B checksum of the
DNSKEY RDATA (flags big-endian, protocol 3, algorithm, raw public key):
a 32-bit accumulator adding `byte << 8` at even index and `byte` at odd
index, folding in `ac >> 16`, returning the low 16 bits. -/
theorem c8_key_tag_rfc4034 (n : Name) (ttl : Nat)
    (zoneKey secureEntryPoint revoke : Bool) (algorithm : Nat)
    (publicKey : List Nat) :
    computeKeyTag ⟨n, ttl,
        RData.dnskey zoneKey secureEntryPoint revoke algorithm publicKey⟩ =
      Except.ok (keyTagDescribed (dnskeyFlags zoneKey secureEntryPoint revoke)
        algorithm publicKey) := by
  have key : ∀ ac : Nat, ac < 2 ^ 32 →
      ((ac + (ac >>> 16 &&& 0xFFFF)) % 2 ^ 32) &&& 0xFFFF =
        ((ac + ac >>> 16) % 2 ^ 32) % 65536 := by
    intro ac hlt
    have hshift : ac >>> 16 = ac / 65536 := by
      rw [Nat.shiftRight_eq_div_pow]
    have hpow : (2 : Nat) ^ 32 = 65536 * 65536 := by norm_num
    have hsmall : ac >>> 16 < 65536 := by
      rw [hshift]
      exact Nat.div_lt_of_lt_mul (by omega)
    rw [and_ffff_eq_mod, and_ffff_eq_mod, Nat.mod_eq_of_lt hsmall]
  exact congrArg Except.ok
    (key (keyTagAccumulate (dnskeyRdataWire zoneKey secureEntryPoint revoke
      algorithm publicKey)) (keyTagAccumulate_lt _))

/-- C9: the AXFR stream emits one response message per record of
`get_all_records`, each authoritative and carrying the original question;
the first and last messages carry the synthesized SOA, and the intermediate
messages carry each zone record exactly once, in the index order. -/
theorem c9_axfr_stream_shape (queryId : Nat) (question : Question)
    (zone : Zone) :
    (axfrStream queryId question zone).map DnsMessage.answers =
        [[zone.getSoaRecord]] ++ zone.flattenedRecords.map (fun r => [r]) ++
          [[zone.getSoaRecord]] ∧
    (axfrStream queryId question zone).head? =
        some (axfrMessage queryId question zone.getSoaRecord) ∧
    (axfrStream queryId question zone).getLast? =
        some (axfrMessage queryId question zone.getSoaRecord) ∧
    ∀ m ∈ axfrStream queryId question zone,
      m.authoritative = true ∧ m.queries = [question] ∧ m.id = queryId ∧
        m.messageType = MessageType.response := by
  unfold axfrStream Zone.getAllRecords
  refine ⟨?_, ?_, ?_, ?_⟩
  · simp [List.map_map, axfrMessage]
  · simp
  · rw [List.map_append, List.map_singleton, List.getLast?_concat]
  · intro m hm
    simp only [List.mem_map] at hm
    obtain ⟨r, _, rfl⟩ := hm
    exact ⟨rfl, rfl, rfl, rfl⟩

/-- C2 counterexample: the wildcard-synthesized answer for
`random.example.com. A` keeps the stored owner name `*.example.com.`; it is
not rewritten to the query name, contradicting the claim at this input. -/
theorem c2_wildcard_owner_cex :
    (processQuery storeWild queryRandomA).responseCode =
        ResponseCode.noError ∧
    (processQuery storeWild queryRandomA).answers ≠ [] ∧
    ¬ (∀ r ∈ (processQuery storeWild queryRandomA).answers,
        r.name = randomEx) := by
  decide

/-- C3 counterexample: `sub.example.com.` exists as a non-wildcard node
strictly between `example.com.` and the query name `a.sub.example.com.`,
yet `lookup_wildcard` still returns the records synthesized from
`*.example.com.`. -/
theorem c3_empty_nonterminal_cex :
    zoneBlocked.lookupWildcard aSubEx RecordType.a = some [wildARecord] ∧
    zoneBlocked.containsName subEx = true ∧
    subEx.labels.head? ≠ some "*" ∧
    exampleCom.zoneOf subEx = true ∧ subEx ≠ exampleCom ∧
    subEx.zoneOf aSubEx = true ∧ subEx ≠ aSubEx ∧
    wildARecord.name = ⟨"*" :: exampleCom.labels⟩ := by
  decide

/-- C4 counterexample: for a query with opcode UPDATE, the response's opcode
is QUERY (not the query's opcode) and the question is not echoed. -/
theorem c4_opcode_cex :
    (processQuery storeWww queryUpdateOpcode).opCode = OpCode.query ∧
    queryUpdateOpcode.opCode = OpCode.update ∧
    OpCode.query ≠ OpCode.update ∧
    queryUpdateOpcode.queries ≠ [] ∧
    (processQuery storeWww queryUpdateOpcode).queries = [] := by
  decide

/-- C5 counterexample: an AXFR query for a zone the store does not serve is
answered NOERROR (the AXFR marker path returns before the zone lookup), not
REFUSED as the claim requires when no zone origin suffixes the qname. -/
theorem c5_axfr_unserved_cex :
    storeWww.findZone exampleOrg = none ∧
    queryAxfrUnserved.opCode = OpCode.query ∧
    queryAxfrUnserved.queries.head? = some ⟨exampleOrg, RecordType.axfr⟩ ∧
    (processQuery storeWww queryAxfrUnserved).responseCode =
        ResponseCode.noError ∧
    ResponseCode.noError ≠ ResponseCode.refused := by
  decide

theorem chaseCnameStep_fields (zone : Zone) (qtype : RecordType)
    (resp : DnsMessage) (r : Record) :
    (chaseCnameStep zone qtype resp r).id = resp.id ∧
    (chaseCnameStep zone qtype resp r).messageType = resp.messageType ∧
    (chaseCnameStep zone qtype resp r).opCode = resp.opCode ∧
    (chaseCnameStep zone qtype resp r).recursionDesired =
      resp.recursionDesired ∧
    (chaseCnameStep zone qtype resp r).recursionAvailable =
      resp.recursionAvailable ∧
    (chaseCnameStep zone qtype resp r).authoritative = resp.authoritative ∧
    (chaseCnameStep zone qtype resp r).queries = resp.queries := by
  unfold chaseCnameStep
  split
  · split <;> exact ⟨rfl, rfl, rfl, rfl, rfl, rfl, rfl⟩
  · exact ⟨rfl, rfl, rfl, rfl, rfl, rfl, rfl⟩

theorem chaseCnames_fields (zone : Zone) (qtype : RecordType) :
    ∀ (l : List Record) (resp : DnsMessage),
    (chaseCnames zone qtype l resp).id = resp.id ∧
    (chaseCnames zone qtype l resp).messageType = resp.messageType ∧
    (chaseCnames zone qtype l resp).opCode = resp.opCode ∧
    (chaseCnames zone qtype l resp).recursionDesired =
      resp.recursionDesired ∧
    (chaseCnames zone qtype l resp).recursionAvailable =
      resp.recursionAvailable ∧
    (chaseCnames zone qtype l resp).authoritative = resp.authoritative ∧
    (chaseCnames zone qtype l resp).queries = resp.queries := by
  intro l
  induction l with
  | nil => intro resp; exact ⟨rfl, rfl, rfl, rfl, rfl, rfl, rfl⟩
  | cons r rest ih =>
    intro resp
    obtain ⟨a1, a2, a3, a4, a5, a6, a7⟩ :=
      chaseCnameStep_fields zone qtype resp r
    obtain ⟨b1, b2, b3, b4, b5, b6, b7⟩ :=
      ih (chaseCnameStep zone qtype resp r)
    exact ⟨b1.trans a1, b2.trans a2, b3.trans a3, b4.trans a4, b5.trans a5,
      b6.trans a6, b7.trans a7⟩

@[simp] theorem chaseCnames_id (zone : Zone) (qtype : RecordType)
    (l : List Record) (resp : DnsMessage) :
    (chaseCnames zone qtype l resp).id = resp.id :=
  (chaseCnames_fields zone qtype l resp).1

@[simp] theorem chaseCnames_messageType (zone : Zone) (qtype : RecordType)
    (l : List Record) (resp : DnsMessage) :
    (chaseCnames zone qtype l resp).messageType = resp.messageType :=
  (chaseCnames_fields zone qtype l resp).2.1

@[simp] theorem chaseCnames_opCode (zone : Zone) (qtype : RecordType)
    (l : List Record) (resp : DnsMessage) :
    (chaseCnames zone qtype l resp).opCode = resp.opCode :=
  (chaseCnames_fields zone qtype l resp).2.2.1

@[simp] theorem chaseCnames_recursionDesired (zone : Zone)
    (qtype : RecordType) (l : List Record) (resp : DnsMessage) :
    (chaseCnames zone qtype l resp).recursionDesired =
      resp.recursionDesired :=
  (chaseCnames_fields zone qtype l resp).2.2.2.1

@[simp] theorem chaseCnames_recursionAvailable (zone : Zone)
    (qtype : RecordType) (l : List Record) (resp : DnsMessage) :
    (chaseCnames zone qtype l resp).recursionAvailable =
      resp.recursionAvailable :=
  (chaseCnames_fields zone qtype l resp).2.2.2.2.1

@[simp] theorem chaseCnames_authoritative (zone : Zone) (qtype : RecordType)
    (l : List Record) (resp : DnsMessage) :
    (chaseCnames zone qtype l resp).authoritative = resp.authoritative :=
  (chaseCnames_fields zone qtype l resp).2.2.2.2.2.1

@[simp] theorem chaseCnames_queries (zone : Zone) (qtype : RecordType)
    (l : List Record) (resp : DnsMessage) :
    (chaseCnames zone qtype l resp).queries = resp.queries :=
  (chaseCnames_fields zone qtype l resp).2.2.2.2.2.2

theorem attachEdns_id (query r : DnsMessage) :
    (attachEdns query r).id = r.id := by
  unfold attachEdns
  by_cases h : query.edns.isSome <;> simp [h]

theorem attachEdns_messageType (query r : DnsMessage) :
    (attachEdns query r).messageType = r.messageType := by
  unfold attachEdns
  by_cases h : query.edns.isSome <;> simp [h]

theorem attachEdns_opCode (query r : DnsMessage) :
    (attachEdns query r).opCode = r.opCode := by
  unfold attachEdns
  by_cases h : query.edns.isSome <;> simp [h]

theorem attachEdns_recursionDesired (query r : DnsMessage) :
    (attachEdns query r).recursionDesired = r.recursionDesired := by
  unfold attachEdns
  by_cases h : query.edns.isSome <;> simp [h]

theorem attachEdns_recursionAvailable (query r : DnsMessage) :
    (attachEdns query r).recursionAvailable = r.recursionAvailable := by
  unfold attachEdns
  by_cases h : query.edns.isSome <;> simp [h]

theorem attachEdns_queries (query r : DnsMessage) :
    (attachEdns query r).queries = r.queries := by
  unfold attachEdns
  by_cases h : query.edns.isSome <;> simp [h]

theorem attachEdns_answers (query r : DnsMessage) :
    (attachEdns query r).answers = r.answers := by
  unfold attachEdns
  by_cases h : query.edns.isSome <;> simp [h]

theorem attachEdns_nameServers (query r : DnsMessage) :
    (attachEdns query r).nameServers = r.nameServers := by
  unfold attachEdns
  by_cases h : query.edns.isSome <;> simp [h]

theorem attachEdns_responseCode (query r : DnsMessage) :
    (attachEdns query r).responseCode = r.responseCode := by
  unfold attachEdns
  by_cases h : query.edns.isSome <;> simp [h]

theorem addApexNs_id (zone : Zone) (r : DnsMessage) :
    (addApexNs zone r).id = r.id := by
  unfold addApexNs
  split
  · split <;> rfl
  · rfl

theorem addApexNs_messageType (zone : Zone) (r : DnsMessage) :
    (addApexNs zone r).messageType = r.messageType := by
  unfold addApexNs
  split
  · split <;> rfl
  · rfl

theorem addApexNs_opCode (zone : Zone) (r : DnsMessage) :
    (addApexNs zone r).opCode = r.opCode := by
  unfold addApexNs
  split
  · split <;> rfl
  · rfl

theorem addApexNs_recursionDesired (zone : Zone) (r : DnsMessage) :
    (addApexNs zone r).recursionDesired = r.recursionDesired := by
  unfold addApexNs
  split
  · split <;> rfl
  · rfl

theorem addApexNs_recursionAvailable (zone : Zone) (r : DnsMessage) :
    (addApexNs zone r).recursionAvailable = r.recursionAvailable := by
  unfold addApexNs
  split
  · split <;> rfl
  · rfl

theorem addApexNs_queries (zone : Zone) (r : DnsMessage) :
    (addApexNs zone r).queries = r.queries := by
  unfold addApexNs
  split
  · split <;> rfl
  · rfl

theorem addApexNs_answers (zone : Zone) (r : DnsMessage) :
    (addApexNs zone r).answers = r.answers := by
  unfold addApexNs
  split
  · split <;> rfl
  · rfl

theorem addApexNs_responseCode (zone : Zone) (r : DnsMessage) :
    (addApexNs zone r).responseCode = r.responseCode := by
  unfold addApexNs
  split
  · split <;> rfl
  · rfl

theorem answerSection_id (zone : Zone) (qname : Name) (qtype : RecordType)
    (r : DnsMessage) : (answerSection zone qname qtype r).id = r.id := by
  simp only [answerSection]
  split
  · rfl
  · split
    · exact chaseCnames_id _ _ _ _
    · split <;> rfl

theorem answerSection_messageType (zone : Zone) (qname : Name)
    (qtype : RecordType) (r : DnsMessage) :
    (answerSection zone qname qtype r).messageType = r.messageType := by
  simp only [answerSection]
  split
  · rfl
  · split
    · exact chaseCnames_messageType _ _ _ _
    · split <;> rfl

theorem answerSection_opCode (zone : Zone) (qname : Name)
    (qtype : RecordType) (r : DnsMessage) :
    (answerSection zone qname qtype r).opCode = r.opCode := by
  simp only [answerSection]
  split
  · rfl
  · split
    · exact chaseCnames_opCode _ _ _ _
    · split <;> rfl

theorem answerSection_recursionDesired (zone : Zone) (qname : Name)
    (qtype : RecordType) (r : DnsMessage) :
    (answerSection zone qname qtype r).recursionDesired =
      r.recursionDesired := by
  simp only [answerSection]
  split
  · rfl
  · split
    · exact chaseCnames_recursionDesired _ _ _ _
    · split <;> rfl

theorem answerSection_recursionAvailable (zone : Zone) (qname : Name)
    (qtype : RecordType) (r : DnsMessage) :
    (answerSection zone qname qtype r).recursionAvailable =
      r.recursionAvailable := by
  simp only [answerSection]
  split
  · rfl
  · split
    · exact chaseCnames_recursionAvailable _ _ _ _
    · split <;> rfl

theorem answerSection_queries (zone : Zone) (qname : Name)
    (qtype : RecordType) (r : DnsMessage) :
    (answerSection zone qname qtype r).queries = r.queries := by
  simp only [answerSection]
  split
  · rfl
  · split
    · exact chaseCnames_queries _ _ _ _
    · split <;> rfl

theorem addApexNs_of_not_noError (zone : Zone) (r : DnsMessage)
    (h : r.responseCode ≠ ResponseCode.noError) : addApexNs zone r = r := by
  unfold addApexNs
  rw [if_neg]
  simp [h]

theorem addApexNs_of_empty_answers (zone : Zone) (r : DnsMessage)
    (h : r.answers = []) : addApexNs zone r = r := by
  unfold addApexNs
  rw [if_neg]
  simp [h]

theorem answerSection_wildcard_hit (zone : Zone) (qname : Name)
    (qtype : RecordType) (r : DnsMessage) (recs : List Record)
    (hn : zone.containsName qname = false)
    (hw : zone.lookupWildcard qname qtype = some recs) :
    answerSection zone qname qtype r =
      { r with
        answers := r.answers ++ recs
        responseCode := ResponseCode.noError } := by
  simp [answerSection, hn, hw]

theorem answerSection_nxdomain (zone : Zone) (qname : Name)
    (qtype : RecordType) (r : DnsMessage)
    (hn : zone.containsName qname = false)
    (hw1 : zone.lookupWildcard qname qtype = none)
    (hw2 : zone.lookupWildcard qname RecordType.cname = none) :
    answerSection zone qname qtype r =
      { r with
        responseCode := ResponseCode.nxDomain
        nameServers := r.nameServers ++ [zone.getSoaRecord] } := by
  simp [answerSection, hn, hw1, hw2]

theorem answerSection_nodata (zone : Zone) (qname : Name)
    (qtype : RecordType) (r : DnsMessage)
    (hn : zone.containsName qname = true)
    (hl1 : zone.lookup qname qtype = none)
    (hl2 : zone.lookup qname RecordType.cname = none) :
    answerSection zone qname qtype r =
      { r with
        responseCode := ResponseCode.noError
        nameServers := r.nameServers ++ [zone.getSoaRecord] } := by
  simp [answerSection, hn, hl1, hl2]

theorem processQuery_mainPath (zones : ZoneStore) (query : DnsMessage)
    (question : Question) (zone : Zone)
    (h1 : query.opCode = OpCode.query)
    (h2 : query.queries.head? = some question)
    (h3 : question.qtype ≠ RecordType.axfr)
    (h4 : zones.findZone question.name = some zone) :
    processQuery zones query =
      attachEdns query
        (addApexNs zone
          (answerSection zone question.name question.qtype
            { DnsMessage.new with
              id := query.id
              messageType := MessageType.response
              opCode := OpCode.query
              recursionDesired := query.recursionDesired
              recursionAvailable := false
              queries := [question]
              authoritative := true })) := by
  unfold processQuery
  rw [if_neg (by simp [h1]), h2]
  simp only [if_neg h3, h4]

theorem mainValue_nxdomain (query : DnsMessage) (zone : Zone) (qname : Name)
    (qtype : RecordType) (r : DnsMessage)
    (hn : zone.containsName qname = false)
    (hw1 : zone.lookupWildcard qname qtype = none)
    (hw2 : zone.lookupWildcard qname RecordType.cname = none)
    (hns : r.nameServers = []) :
    (attachEdns query
        (addApexNs zone (answerSection zone qname qtype r))).responseCode =
      ResponseCode.nxDomain ∧
    (attachEdns query
        (addApexNs zone (answerSection zone qname qtype r))).nameServers =
      [zone.getSoaRecord] := by
  rw [answerSection_nxdomain zone qname qtype r hn hw1 hw2,
    addApexNs_of_not_noError zone _ (by simp)]
  refine ⟨?_, ?_⟩
  · rw [attachEdns_responseCode]
  · rw [attachEdns_nameServers]
    simp [hns]

theorem mainValue_nodata (query : DnsMessage) (zone : Zone) (qname : Name)
    (qtype : RecordType) (r : DnsMessage)
    (hn : zone.containsName qname = true)
    (hl1 : zone.lookup qname qtype = none)
    (hl2 : zone.lookup qname RecordType.cname = none)
    (hns : r.nameServers = []) (hans : r.answers = []) :
    (attachEdns query
        (addApexNs zone (answerSection zone qname qtype r))).responseCode =
      ResponseCode.noError ∧
    (attachEdns query
        (addApexNs zone (answerSection zone qname qtype r))).answers = [] ∧
    (attachEdns query
        (addApexNs zone (answerSection zone qname qtype r))).nameServers =
      [zone.getSoaRecord] := by
  rw [answerSection_nodata zone qname qtype r hn hl1 hl2,
    addApexNs_of_empty_answers zone _ (by simp [hans])]
  refine ⟨?_, ?_, ?_⟩
  · rw [attachEdns_responseCode]
  · rw [attachEdns_answers]
    simp [hans]
  · rw [attachEdns_nameServers]
    simp [hns]

/-- C2 (amended): when the query name is absent from the matched zone and a
wildcard holds records of the queried type, the response is NOERROR and the
answer section is exactly the wildcard RRset as stored; in particular every
answer record keeps the wildcard owner name, which is not rewritten to the
query name. -/
theorem c2_wildcard_answers_verbatim (zones : ZoneStore) (query : DnsMessage)
    (question : Question) (zone : Zone) (recs : List Record)
    (h1 : query.opCode = OpCode.query)
    (h2 : query.queries.head? = some question)
    (h3 : question.qtype ≠ RecordType.axfr)
    (h4 : zones.findZone question.name = some zone)
    (h5 : zone.containsName question.name = false)
    (h6 : zone.lookupWildcard question.name question.qtype = some recs) :
    (processQuery zones query).responseCode = ResponseCode.noError ∧
    (processQuery zones query).answers = recs := by
  rw [processQuery_mainPath zones query question zone h1 h2 h3 h4,
    answerSection_wildcard_hit zone question.name question.qtype _ recs h5 h6]
  constructor
  · rw [attachEdns_responseCode, addApexNs_responseCode]
  · rw [attachEdns_answers, addApexNs_answers]
    rfl

/-- C2 witness: the amended claim at the wildcard fixture; the single answer
is the stored wildcard record, whose owner name is `*.example.com.`. -/
theorem c2_wildcard_answers_verbatim_witness :
    (processQuery storeWild queryRandomA).responseCode =
        ResponseCode.noError ∧
    (processQuery storeWild queryRandomA).answers = [wildARecord] :=
  c2_wildcard_answers_verbatim storeWild queryRandomA ⟨randomEx, RecordType.a⟩
    zoneWild [wildARecord] (by decide) (by decide) (by decide) (by decide)
    (by decide) (by decide)

theorem processQuery_frame (zones : ZoneStore) (query : DnsMessage) :
    (processQuery zones query).id = query.id ∧
    (processQuery zones query).messageType = MessageType.response ∧
    (processQuery zones query).opCode = OpCode.query ∧
    (processQuery zones query).recursionAvailable = false ∧
    (processQuery zones query).recursionDesired = query.recursionDesired := by
  by_cases hop : query.opCode = OpCode.query
  · cases hq : query.queries.head? with
    | none =>
      unfold processQuery
      rw [if_neg (by simp [hop]), hq]
      exact ⟨rfl, rfl, rfl, rfl, rfl⟩
    | some question =>
      by_cases hax : question.qtype = RecordType.axfr
      · unfold processQuery
        rw [if_neg (by simp [hop]), hq]
        simp [hax]
      · cases hfz : zones.findZone question.name with
        | none =>
          unfold processQuery
          rw [if_neg (by simp [hop]), hq]
          simp [hax, hfz]
        | some zone =>
          rw [processQuery_mainPath zones query question zone hop hq hax hfz]
          refine ⟨?_, ?_, ?_, ?_, ?_⟩
          · rw [attachEdns_id, addApexNs_id, answerSection_id]
          · rw [attachEdns_messageType, addApexNs_messageType,
              answerSection_messageType]
          · rw [attachEdns_opCode, addApexNs_opCode, answerSection_opCode]
          · rw [attachEdns_recursionAvailable, addApexNs_recursionAvailable,
              answerSection_recursionAvailable]
          · rw [attachEdns_recursionDesired, addApexNs_recursionDesired,
              answerSection_recursionDesired]
  · unfold processQuery
    rw [if_pos hop]
    exact ⟨rfl, rfl, rfl, rfl, rfl⟩

/-- C4 (amended): for EVERY query Q, the response R of `process_query`
copies Q's id, is flagged as a response (QR=true), has recursion-available
clear, mirrors Q's recursion-desired bit, and has opcode QUERY
(`process_query` sets it unconditionally), so R.opcode equals Q.opcode
exactly when Q.opcode is QUERY; for non-QUERY opcodes no question is
echoed, and when Q.opcode is QUERY and Q has a first question, R echoes
that first question. -/
theorem c4_response_framing (zones : ZoneStore) (query : DnsMessage) :
    (processQuery zones query).id = query.id ∧
    (processQuery zones query).messageType = MessageType.response ∧
    (processQuery zones query).opCode = OpCode.query ∧
    (processQuery zones query).recursionAvailable = false ∧
    (processQuery zones query).recursionDesired = query.recursionDesired ∧
    ((processQuery zones query).opCode = query.opCode ↔
      query.opCode = OpCode.query) ∧
    (query.opCode ≠ OpCode.query → (processQuery zones query).queries = []) ∧
    (∀ question, query.opCode = OpCode.query →
      query.queries.head? = some question →
      (processQuery zones query).queries.head? = some question) := by
  obtain ⟨h1, h2, h3, h4, h5⟩ := processQuery_frame zones query
  refine ⟨h1, h2, h3, h4, h5, ?_, ?_, ?_⟩
  · rw [h3]; exact eq_comm
  · intro hop
    unfold processQuery
    rw [if_pos hop]
    rfl
  · intro question hop hq
    by_cases hax : question.qtype = RecordType.axfr
    · unfold processQuery
      rw [if_neg (by simp [hop]), hq]
      simp [hax]
    · cases hfz : zones.findZone question.name with
      | none =>
        unfold processQuery
        rw [if_neg (by simp [hop]), hq]
        simp [hax, hfz]
      | some zone =>
        rw [processQuery_mainPath zones query question zone hop hq hax hfz]
        rw [attachEdns_queries, addApexNs_queries, answerSection_queries]
        rfl

/-- C4 witness: the framing clauses at a concrete QUERY-opcode query,
including the question echo with its hypotheses discharged. -/
theorem c4_response_framing_witness :
    (processQuery storeWww queryWwwA).id = queryWwwA.id ∧
    (processQuery storeWww queryWwwA).messageType = MessageType.response ∧
    (processQuery storeWww queryWwwA).opCode = OpCode.query ∧
    (processQuery storeWww queryWwwA).recursionAvailable = false ∧
    (processQuery storeWww queryWwwA).recursionDesired =
      queryWwwA.recursionDesired ∧
    (processQuery storeWww queryWwwA).queries.head? =
      some ⟨wwwEx, RecordType.a⟩ :=
  ⟨(c4_response_framing storeWww queryWwwA).1,
   (c4_response_framing storeWww queryWwwA).2.1,
   (c4_response_framing storeWww queryWwwA).2.2.1,
   (c4_response_framing storeWww queryWwwA).2.2.2.1,
   (c4_response_framing storeWww queryWwwA).2.2.2.2.1,
   (c4_response_framing storeWww queryWwwA).2.2.2.2.2.2.2
     ⟨wwwEx, RecordType.a⟩ (by decide) (by decide)⟩

/-- C5 (amended): the response code selection of `process_query`, with the
AXFR carve-out: NOT_IMPLEMENTED for non-QUERY opcodes; FORM_ERR for zero
questions; and, for non-AXFR question types, REFUSED on a zone-store miss,
NXDOMAIN with the SOA in authority when the name does not exist and neither
a wildcard of the queried type nor a wildcard CNAME matches, and NODATA
(NOERROR with the SOA in authority and no answers) when the name exists with
neither records of the queried type nor a CNAME. AXFR questions return early
as the NOERROR marker for the TCP streaming path. -/
theorem c5_response_code_selection (zones : ZoneStore) (query : DnsMessage)
    (question : Question) (zone : Zone) :
    (query.opCode ≠ OpCode.query →
      (processQuery zones query).responseCode = ResponseCode.notImp) ∧
    (query.opCode = OpCode.query → query.queries = [] →
      (processQuery zones query).responseCode = ResponseCode.formErr) ∧
    (query.opCode = OpCode.query → query.queries.head? = some question →
      question.qtype ≠ RecordType.axfr →
      zones.findZone question.name = none →
      (processQuery zones query).responseCode = ResponseCode.refused) ∧
    (query.opCode = OpCode.query → query.queries.head? = some question →
      question.qtype ≠ RecordType.axfr →
      zones.findZone question.name = some zone →
      zone.containsName question.name = false →
      zone.lookupWildcard question.name question.qtype = none →
      zone.lookupWildcard question.name RecordType.cname = none →
      (processQuery zones query).responseCode = ResponseCode.nxDomain ∧
      (processQuery zones query).nameServers = [zone.getSoaRecord]) ∧
    (query.opCode = OpCode.query → query.queries.head? = some question →
      question.qtype ≠ RecordType.axfr →
      zones.findZone question.name = some zone →
      zone.containsName question.name = true →
      zone.lookup question.name question.qtype = none →
      zone.lookup question.name RecordType.cname = none →
      (processQuery zones query).responseCode = ResponseCode.noError ∧
      (processQuery zones query).answers = [] ∧
      (processQuery zones query).nameServers = [zone.getSoaRecord]) := by
  refine ⟨?_, ?_, ?_, ?_, ?_⟩
  · intro h
    unfold processQuery
    rw [if_pos h]
  · intro h1 hq
    unfold processQuery
    rw [if_neg (by simp [h1]), hq]
    rfl
  · intro h1 h2 h3 h4
    unfold processQuery
    rw [if_neg (by simp [h1]), h2]
    simp [if_neg h3, h4]
  · intro h1 h2 h3 h4 h5 h6 h7
    rw [processQuery_mainPath zones query question zone h1 h2 h3 h4]
    exact mainValue_nxdomain query zone question.name question.qtype _
      h5 h6 h7 rfl
  · intro h1 h2 h3 h4 h5 h6 h7
    rw [processQuery_mainPath zones query question zone h1 h2 h3 h4]
    exact mainValue_nodata query zone question.name question.qtype _
      h5 h6 h7 rfl rfl

/-- C5 witness: the NXDOMAIN clause of the amended claim at a concrete query
for a name absent from the served zone. -/
theorem c5_response_code_selection_witness :
    (processQuery storeWww queryNopeA).responseCode =
        ResponseCode.nxDomain ∧
    (processQuery storeWww queryNopeA).nameServers =
      [zoneWww.getSoaRecord] :=
  (c5_response_code_selection storeWww queryNopeA ⟨nopeEx, RecordType.a⟩
      zoneWww).2.2.2.1 (by decide) (by decide) (by decide) (by decide)
    (by decide) (by decide) (by decide)

theorem wildcardScan_first_hit (zone : Zone) (rtype : RecordType) :
    ∀ (ls : List String) (recs : List Record),
    zone.wildcardScan rtype ls = some recs →
    ∃ i, i < ls.length ∧
      zone.tryWildcard rtype (ls.drop i) = some recs ∧
      ∀ j, j < i → zone.tryWildcard rtype (ls.drop j) = none := by
  intro ls
  induction ls with
  | nil =>
    intro recs h
    simp [Zone.wildcardScan] at h
  | cons l rest ih =>
    intro recs h
    unfold Zone.wildcardScan at h
    cases htry : zone.tryWildcard rtype (l :: rest) with
    | some r2 =>
      rw [htry] at h
      refine ⟨0, by simp, ?_, ?_⟩
      · simpa using htry.trans h
      · intro j hj
        omega
    | none =>
      rw [htry] at h
      obtain ⟨i, hi, hhit, hmiss⟩ := ih recs h
      refine ⟨i + 1, by simpa using hi, by simpa using hhit, ?_⟩
      intro j hj
      match j with
      | 0 => simpa using htry
      | k + 1 =>
        have hk : k < i := by omega
        simpa using hmiss k hk

/-- C3 (amended): `lookup_wildcard` returns the records of the first
matching wildcard `*.(ancestor)` scanning ancestors of the query name from
the closest outward, regardless of whether a non-wildcard name exists
strictly between the wildcard parent and the query name: no empty
non-terminal blocking is performed. -/
theorem c3_first_wildcard_hit (zone : Zone) (name : Name)
    (rtype : RecordType) (recs : List Record)
    (h : zone.lookupWildcard name rtype = some recs) :
    ∃ k, 1 ≤ k ∧ k < name.labels.length ∧
      zone.tryWildcard rtype (name.labels.drop k) = some recs ∧
      ∀ j, 1 ≤ j → j < k →
        zone.tryWildcard rtype (name.labels.drop j) = none := by
  unfold Zone.lookupWildcard at h
  obtain ⟨i, hi, hhit, hmiss⟩ :=
    wildcardScan_first_hit zone rtype (name.labels.drop 1) recs h
  rw [List.length_drop] at hi
  refine ⟨i + 1, by omega, by omega, ?_, ?_⟩
  · have hdd : (name.labels.drop 1).drop i = name.labels.drop (i + 1) := by
      rw [List.drop_drop]
      congr 1
      omega
    rw [← hdd]
    exact hhit
  · intro j hj1 hjk
    have hdrop : name.labels.drop j = (name.labels.drop 1).drop (j - 1) := by
      rw [List.drop_drop]
      congr 1
      omega
    rw [hdrop]
    exact hmiss (j - 1) (by omega)

/-- C3 witness: the amended characterization applied at the fixture where
`sub.example.com.` exists between the wildcard parent and the query name. -/
theorem c3_first_wildcard_hit_witness :
    ∃ k, 1 ≤ k ∧ k < aSubEx.labels.length ∧
      zoneBlocked.tryWildcard RecordType.a (aSubEx.labels.drop k) =
        some [wildARecord] ∧
      ∀ j, 1 ≤ j → j < k →
        zoneBlocked.tryWildcard RecordType.a (aSubEx.labels.drop j) = none :=
  c3_first_wildcard_hit zoneBlocked aSubEx RecordType.a [wildARecord]
    (by decide)

/-- C1: `handle_udp_query` computes its size limit from the response's OPT
record, which `process_query` always sets to 4096 octets, instead of the
client's advertised maximum payload. At the failing input (client OPT with
max_payload 512, response serialized to 600 octets) the limit used is 4096,
so the 600-octet datagram is sent untruncated even though it exceeds the
client's 512. -/
theorem c1_max_udp_from_response_edns (wireSize : DnsMessage → Nat)
    (hsize : wireSize (processQuery storeWww queryEdns512) = 600) :
    queryEdns512.edns = some ⟨512, 0, false⟩ ∧
    maxUdpSize (processQuery storeWww queryEdns512) = 4096 ∧
    handleUdpResponse wireSize (processQuery storeWww queryEdns512) =
      processQuery storeWww queryEdns512 ∧
    (processQuery storeWww queryEdns512).truncated = false ∧
    wireSize (processQuery storeWww queryEdns512) > 512 := by
  have hmax : maxUdpSize (processQuery storeWww queryEdns512) = 4096 := by
    decide
  refine ⟨rfl, hmax, ?_, by decide, ?_⟩
  · unfold handleUdpResponse
    rw [hsize, hmax]
    norm_num
  · rw [hsize]
    norm_num

/-- C1 witness: the failing input with a concrete serializer size. -/
theorem c1_max_udp_from_response_edns_witness :
    queryEdns512.edns = some ⟨512, 0, false⟩ ∧
    maxUdpSize (processQuery storeWww queryEdns512) = 4096 ∧
    handleUdpResponse (fun _ => 600) (processQuery storeWww queryEdns512) =
      processQuery storeWww queryEdns512 ∧
    (processQuery storeWww queryEdns512).truncated = false ∧
    (fun _ : DnsMessage => 600) (processQuery storeWww queryEdns512) > 512 :=
  c1_max_udp_from_response_edns (fun _ => 600) rfl

/-- C10: the `parse_zone_file` loop creates the zone only at the first SOA
record: logical lines that parse to non-SOA records before any SOA leave the
state unchanged, so the parse of such a prefix followed by any suffix equals
the parse of the suffix alone — the earlier records are silently discarded
and the file still parses; concretely, a zone file whose NS line precedes
the SOA parses successfully into a zone that has the SOA but lacks the NS
record. -/
theorem c10_pre_soa_discarded (origin curOrigin : Name) (ttl : Nat)
    (pre post : List (Nat × String))
    (hpre : ∀ p ∈ pre,
      strTrim p.2 ≠ "" ∧
      strStartsWith (strTrim p.2) ";" = false ∧
      strStartsWith (strTrim p.2) "$" = false ∧
      ∃ r, parseResourceRecord (strTrim p.2) curOrigin ttl p.1 =
          Except.ok (some r) ∧ r.recordType ≠ RecordType.soa) :
    parseZoneLines origin (pre ++ post) (none, ttl, curOrigin) =
      parseZoneLines origin post (none, ttl, curOrigin) ∧
    (parseZoneFile zoneContentSoaLate "example.com.").isOk = true ∧
    ((parseZoneFile zoneContentSoaLate "example.com.").toOption.map
      (fun z => (z.lookup exampleCom RecordType.ns).isNone)) = some true ∧
    ((parseZoneFile zoneContentSoaLate "example.com.").toOption.map
      (fun z => (z.lookup exampleCom RecordType.soa).isSome)) = some true := by
  refine ⟨?_, by decide, by decide, by decide⟩
  induction pre with
  | nil => rfl
  | cons p pre2 ih =>
    obtain ⟨hne, hsemi, hdollar, r, hr, hrsoa⟩ := hpre p (by simp)
    have hstep : parseZoneStep origin (none, ttl, curOrigin) p.1 p.2 =
        Except.ok (none, ttl, curOrigin) := by
      unfold parseZoneStep
      rw [if_neg (by simp [hne, hsemi]), if_neg (by simp [hdollar]), hr]
      simp [hrsoa]
    have hcons : parseZoneLines origin ((p.1, p.2) :: (pre2 ++ post))
        (none, ttl, curOrigin) =
        parseZoneLines origin (pre2 ++ post) (none, ttl, curOrigin) := by
      show (match parseZoneStep origin (none, ttl, curOrigin) p.1 p.2 with
            | Except.error e => Except.error e
            | Except.ok st2 => parseZoneLines origin (pre2 ++ post) st2) = _
      rw [hstep]
    calc parseZoneLines origin ((p.1, p.2) :: pre2 ++ post)
          (none, ttl, curOrigin)
        = parseZoneLines origin (pre2 ++ post) (none, ttl, curOrigin) :=
          hcons
      _ = parseZoneLines origin post (none, ttl, curOrigin) :=
          ih (fun q hq => hpre q (List.mem_cons_of_mem p hq))

/-- C10 witness: the loop property applied to a concrete NS line preceding
the SOA line. -/
theorem c10_pre_soa_discarded_witness :
    parseZoneLines exampleCom
        ([(1, "@ IN NS ns1.example.com.")] ++
          [(2, "@ IN SOA ns1.example.com. admin.example.com. 1 7200 3600 1209600 86400")])
        (none, 3600, exampleCom) =
      parseZoneLines exampleCom
        [(2, "@ IN SOA ns1.example.com. admin.example.com. 1 7200 3600 1209600 86400")]
        (none, 3600, exampleCom) :=
  (c10_pre_soa_discarded exampleCom exampleCom 3600
    [(1, "@ IN NS ns1.example.com.")]
    [(2, "@ IN SOA ns1.example.com. admin.example.com. 1 7200 3600 1209600 86400")]
    (by
      intro p hp
      rw [List.mem_singleton] at hp
      subst hp
      exact ⟨by decide, by decide, by decide,
        ⟨exampleCom, 3600, RData.ns ⟨["ns1", "example", "com"]⟩⟩,
        by rfl, by decide⟩)).1

theorem alistGet_cons_self (k : IpAddr) (v : ClientState)
    (rest : List (IpAddr × ClientState)) :
    alistGet ((k, v) :: rest) k = some v := by
  simp [alistGet]

theorem alistGet_cons_ne (k : IpAddr) (v : ClientState)
    (rest : List (IpAddr × ClientState)) (addr : IpAddr) (h : k ≠ addr) :
    alistGet ((k, v) :: rest) addr = alistGet rest addr := by
  simp [alistGet, h]

theorem alistGet_setClient :
    ∀ (l : List (IpAddr × ClientState)) (addr : IpAddr) (qs : List Nat),
    alistGet (setClient l addr qs) addr = some ⟨qs⟩ := by
  intro l
  induction l with
  | nil => intro addr qs; simp [setClient, alistGet]
  | cons e rest ih =>
    intro addr qs
    show alistGet
      (if e.1 = addr then (e.1, ⟨qs⟩) :: rest
       else (e.1, e.2) :: setClient rest addr qs) addr = some ⟨qs⟩
    by_cases hk : e.1 = addr
    · rw [if_pos hk, hk, alistGet_cons_self]
    · rw [if_neg hk, alistGet_cons_ne _ _ _ _ hk]
      exact ih addr qs

theorem setClient_keys :
    ∀ (l : List (IpAddr × ClientState)) (addr : IpAddr) (qs : List Nat),
    (setClient l addr qs).map Prod.fst =
      if addr ∈ l.map Prod.fst then l.map Prod.fst
      else l.map Prod.fst ++ [addr] := by
  intro l
  induction l with
  | nil => intro addr qs; simp [setClient]
  | cons e rest ih =>
    intro addr qs
    unfold setClient
    by_cases hk : e.1 = addr
    · simp [hk]
    · have hne : addr ≠ e.1 := fun h => hk h.symm
      simp only [List.map_cons, List.mem_cons]
      rw [if_neg hk]
      simp only [List.map_cons, ih addr qs]
      by_cases hmem : addr ∈ rest.map Prod.fst
      · simp [hmem, hne]
      · simp [hmem, hne]

theorem setClient_keys_nodup (l : List (IpAddr × ClientState)) (addr : IpAddr)
    (qs : List Nat) (h : (l.map Prod.fst).Nodup) :
    ((setClient l addr qs).map Prod.fst).Nodup := by
  rw [setClient_keys]
  by_cases hmem : addr ∈ l.map Prod.fst
  · simpa [hmem] using h
  · simp only [hmem, if_neg, ite_false]
    simp [List.nodup_append, h, hmem]

theorem clientQueries_setClient (inner : RateLimiterInner) (addr : IpAddr)
    (qs : List Nat) :
    clientQueries { inner with clients := setClient inner.clients addr qs }
      addr = qs := by
  unfold clientQueries
  rw [show ({ inner with clients := setClient inner.clients addr qs } :
      RateLimiterInner).clients = setClient inner.clients addr qs from rfl]
  rw [alistGet_setClient]

theorem cleanupClients_cons (w now : Nat) (e : IpAddr × ClientState)
    (rest : List (IpAddr × ClientState)) :
    cleanupClients w now (e :: rest) =
      if (e.2.queries.filter (inWindow w now)).isEmpty then
        cleanupClients w now rest
      else
        (e.1, ClientState.mk (e.2.queries.filter (inWindow w now))) ::
          cleanupClients w now rest := by
  unfold cleanupClients
  rw [List.map_cons, List.filter_cons]
  by_cases h : (e.2.queries.filter (inWindow w now)).isEmpty <;> simp [h]

theorem alistGet_cleanupClients_absent (w now : Nat) (addr : IpAddr) :
    ∀ l : List (IpAddr × ClientState), addr ∉ l.map Prod.fst →
    alistGet (cleanupClients w now l) addr = none := by
  intro l
  induction l with
  | nil => intro _; rfl
  | cons e rest ih =>
    intro habs
    simp only [List.map_cons, List.mem_cons] at habs
    push_neg at habs
    rw [cleanupClients_cons]
    by_cases hemp : (e.2.queries.filter (inWindow w now)).isEmpty
    · rw [if_pos hemp]
      exact ih habs.2
    · rw [if_neg hemp, alistGet_cons_ne _ _ _ _ (fun h => habs.1 h.symm)]
      exact ih habs.2

theorem clientQueries_cleanupClients (w now : Nat) (addr : IpAddr) :
    ∀ l : List (IpAddr × ClientState), (l.map Prod.fst).Nodup →
    (match alistGet (cleanupClients w now l) addr with
      | some c => c.queries
      | none => []) =
      (match alistGet l addr with
        | some c => c.queries
        | none => []).filter (inWindow w now) := by
  intro l
  induction l with
  | nil => intro _; rfl
  | cons e rest ih =>
    intro hnd
    simp only [List.map_cons, List.nodup_cons] at hnd
    rw [cleanupClients_cons]
    by_cases hk : e.1 = addr
    · subst hk
      rw [show alistGet (e :: rest) e.1 = some e.2 from alistGet_cons_self
        e.1 e.2 rest]
      by_cases hemp : (e.2.queries.filter (inWindow w now)).isEmpty
      · rw [if_pos hemp, alistGet_cleanupClients_absent w now e.1 rest hnd.1]
        rw [List.isEmpty_iff] at hemp
        simp [hemp]
      · rw [if_neg hemp, alistGet_cons_self]
    · rw [show alistGet (e :: rest) addr = alistGet rest addr from
        alistGet_cons_ne e.1 e.2 rest addr hk]
      by_cases hemp : (e.2.queries.filter (inWindow w now)).isEmpty
      · rw [if_pos hemp]
        exact ih hnd.2
      · rw [if_neg hemp, alistGet_cons_ne _ _ _ _ hk]
        exact ih hnd.2

theorem clientQueries_cleanup (inner : RateLimiterInner) (now : Nat)
    (addr : IpAddr) (h : (inner.clients.map Prod.fst).Nodup) :
    clientQueries (inner.cleanup now) addr =
      (clientQueries inner addr).filter (inWindow inner.window now) := by
  unfold clientQueries RateLimiterInner.cleanup
  exact clientQueries_cleanupClients inner.window now addr inner.clients h

theorem cleanupClients_keys_sublist (w now : Nat)
    (l : List (IpAddr × ClientState)) :
    ((cleanupClients w now l).map Prod.fst).Sublist (l.map Prod.fst) := by
  unfold cleanupClients
  have h2 := (@List.filter_sublist _ (fun entry => !entry.2.queries.isEmpty)
    (l.map (fun entry =>
      (entry.1,
        ClientState.mk (entry.2.queries.filter (inWindow w now)))))).map
    Prod.fst
  simpa [List.map_map, Function.comp] using h2

theorem cleanup_keys_nodup (inner : RateLimiterInner) (now : Nat)
    (h : (inner.clients.map Prod.fst).Nodup) :
    (((inner.cleanup now).clients).map Prod.fst).Nodup :=
  List.Nodup.sublist (cleanupClients_keys_sublist inner.window now
    inner.clients) h

theorem filter_idem (p : Nat → Bool) (l : List Nat) :
    (l.filter p).filter p = l.filter p := by
  rw [List.filter_filter]
  simp

theorem rateLimitRetain_spec (inner : RateLimiterInner) (now : Nat)
    (addr : IpAddr) (hnd : (inner.clients.map Prod.fst).Nodup) :
    ((rateLimitRetain inner now addr).1 = true ↔
      ((clientQueries inner addr).filter
        (inWindow inner.window now)).length < inner.maxQps) ∧
    clientQueries (rateLimitRetain inner now addr).2 addr =
      (if ((clientQueries inner addr).filter
          (inWindow inner.window now)).length < inner.maxQps then
        (clientQueries inner addr).filter (inWindow inner.window now) ++ [now]
      else
        (clientQueries inner addr).filter (inWindow inner.window now)) ∧
    ((rateLimitRetain inner now addr).2.clients.map Prod.fst).Nodup ∧
    (rateLimitRetain inner now addr).2.window = inner.window ∧
    (rateLimitRetain inner now addr).2.maxQps = inner.maxQps := by
  unfold rateLimitRetain
  by_cases hge : ((clientQueries inner addr).filter
      (inWindow inner.window now)).length ≥ inner.maxQps
  · rw [if_pos hge]
    refine ⟨by simp; omega, ?_, setClient_keys_nodup _ _ _ hnd, rfl, rfl⟩
    rw [clientQueries_setClient, if_neg (by omega)]
  · rw [if_neg hge]
    refine ⟨by simp; omega, ?_, setClient_keys_nodup _ _ _ hnd, rfl, rfl⟩
    rw [clientQueries_setClient, if_pos (by omega)]

theorem checkRateLimit_spec (inner : RateLimiterInner) (now : Nat)
    (addr : IpAddr) (hnd : (inner.clients.map Prod.fst).Nodup) :
    ((checkRateLimit inner now addr).1 = true ↔
      ((clientQueries inner addr).filter
        (inWindow inner.window now)).length < inner.maxQps) ∧
    clientQueries (checkRateLimit inner now addr).2 addr =
      (if ((clientQueries inner addr).filter
          (inWindow inner.window now)).length < inner.maxQps then
        (clientQueries inner addr).filter (inWindow inner.window now) ++ [now]
      else
        (clientQueries inner addr).filter (inWindow inner.window now)) ∧
    ((checkRateLimit inner now addr).2.clients.map Prod.fst).Nodup ∧
    (checkRateLimit inner now addr).2.window = inner.window ∧
    (checkRateLimit inner now addr).2.maxQps = inner.maxQps := by
  unfold checkRateLimit
  by_cases hcl : now - inner.lastCleanup > sixtySecondsUnits
  · rw [if_pos hcl]
    have hnd2 : ((({ inner.cleanup now with lastCleanup := now } :
        RateLimiterInner)).clients.map Prod.fst).Nodup :=
      cleanup_keys_nodup inner now hnd
    obtain ⟨s1, s2, s3, s4, s5⟩ :=
      rateLimitRetain_spec { inner.cleanup now with lastCleanup := now } now
        addr hnd2
    have hq : clientQueries
        ({ inner.cleanup now with lastCleanup := now } : RateLimiterInner)
        addr = (clientQueries inner addr).filter (inWindow inner.window now) :=
      clientQueries_cleanup inner now addr hnd
    have hw : (({ inner.cleanup now with lastCleanup := now } :
        RateLimiterInner)).window = inner.window := rfl
    have hm : (({ inner.cleanup now with lastCleanup := now } :
        RateLimiterInner)).maxQps = inner.maxQps := rfl
    rw [hq, hw, hm, filter_idem] at s1 s2
    exact ⟨s1, s2, s3, s4.trans hw, s5.trans hm⟩
  · rw [if_neg hcl]
    exact rateLimitRetain_spec inner now addr hnd

theorem runRateLimit_burst (addr : IpAddr) :
    ∀ (ts : List Nat) (inner : RateLimiterInner) (acc : List Nat) (t : Nat),
    (inner.clients.map Prod.fst).Nodup →
    clientQueries inner addr = acc →
    ((acc ++ ts) ++ [t]).Pairwise (· ≤ ·) →
    (∀ s ∈ acc ++ ts, t - s < inner.window) →
    acc.length + ts.length ≤ inner.maxQps →
    (runRateLimit inner addr ts).2 = List.replicate ts.length true ∧
    clientQueries (runRateLimit inner addr ts).1 addr = acc ++ ts ∧
    ((runRateLimit inner addr ts).1.clients.map Prod.fst).Nodup ∧
    (runRateLimit inner addr ts).1.window = inner.window ∧
    (runRateLimit inner addr ts).1.maxQps = inner.maxQps := by
  intro ts
  induction ts with
  | nil =>
    intro inner acc t hnd hq _ _ _
    exact ⟨rfl, by simpa using hq, hnd, rfl, rfl⟩
  | cons s rest ih =>
    intro inner acc t hnd hq hpair hwin hlen
    obtain ⟨s1, s2, s3, s4, s5⟩ := checkRateLimit_spec inner s addr hnd
    have hp := List.pairwise_append.mp hpair
    have hp1 := List.pairwise_append.mp hp.1
    have hsle : ∀ a ∈ acc, a ≤ s := fun a ha => hp1.2.2 a ha s (by simp)
    have hstt : s ≤ t := hp.2.2 s (by simp) t (by simp)
    have hkeep : (clientQueries inner addr).filter
        (inWindow inner.window s) = acc := by
      rw [hq]
      apply List.filter_eq_self.mpr
      intro a ha
      have haw : t - a < inner.window := hwin a (by simp [ha])
      have hsa : s - a ≤ t - a := Nat.sub_le_sub_right hstt a
      simp only [inWindow, decide_eq_true_eq]
      omega
    have hallow : ((clientQueries inner addr).filter
        (inWindow inner.window s)).length < inner.maxQps := by
      rw [hkeep]
      simp at hlen
      omega
    have hstep1 : (checkRateLimit inner s addr).1 = true := s1.mpr hallow
    have hstep2 : clientQueries (checkRateLimit inner s addr).2 addr =
        acc ++ [s] := by
      rw [s2, if_pos hallow, hkeep]
    obtain ⟨r1, r2, r3, r4, r5⟩ :=
      ih (checkRateLimit inner s addr).2 (acc ++ [s]) t s3 hstep2
        (by
          have : ((acc ++ [s]) ++ rest) ++ [t] =
              (acc ++ s :: rest) ++ [t] := by
            simp
          rw [this]
          exact hpair)
        (by
          intro x hx
          rw [s4]
          apply hwin
          simp at hx
          rcases hx with hx | hx | hx <;> simp [hx])
        (by
          rw [s5]
          simp at hlen ⊢
          omega)
    refine ⟨?_, ?_, r3, r4.trans s4, r5.trans s5⟩
    · show ((runRateLimit (checkRateLimit inner s addr).2 addr rest).1,
        (checkRateLimit inner s addr).1 ::
          (runRateLimit (checkRateLimit inner s addr).2 addr rest).2).2 =
        List.replicate (rest.length + 1) true
      rw [show ((runRateLimit (checkRateLimit inner s addr).2 addr rest).1,
        (checkRateLimit inner s addr).1 ::
          (runRateLimit (checkRateLimit inner s addr).2 addr rest).2).2 =
        (checkRateLimit inner s addr).1 ::
          (runRateLimit (checkRateLimit inner s addr).2 addr rest).2 from
        rfl]
      rw [hstep1, r1, List.replicate_succ]
    · show clientQueries
        (runRateLimit (checkRateLimit inner s addr).2 addr rest).1 addr = _
      rw [r2]
      simp

/-- C6: `check_rate_limit` first discards the client's timestamps older than
the one-second window, denies when at least `max_qps` remain and otherwise
records `now` and allows; with `max_qps = 0` every call is denied; and after
`max_qps` allowed calls within one second the next call from the same IP is
denied. The hypothesis that client addresses are distinct holds for every
state the limiter itself builds (`HashMap` keys are unique). -/
theorem c6_rate_limit_behavior (inner : RateLimiterInner) (now : Nat)
    (addr : IpAddr) (hnd : (inner.clients.map Prod.fst).Nodup) :
    ((checkRateLimit inner now addr).1 = true ↔
      ((clientQueries inner addr).filter
        (inWindow inner.window now)).length < inner.maxQps) ∧
    clientQueries (checkRateLimit inner now addr).2 addr =
      (if ((clientQueries inner addr).filter
          (inWindow inner.window now)).length < inner.maxQps then
        (clientQueries inner addr).filter (inWindow inner.window now) ++ [now]
      else
        (clientQueries inner addr).filter (inWindow inner.window now)) ∧
    (inner.maxQps = 0 → (checkRateLimit inner now addr).1 = false) ∧
    (∀ ts : List Nat, clientQueries inner addr = [] →
      (ts ++ [now]).Pairwise (· ≤ ·) →
      (∀ s ∈ ts, now - s < inner.window) →
      ts.length = inner.maxQps →
      (runRateLimit inner addr ts).2 =
        List.replicate inner.maxQps true ∧
      (checkRateLimit (runRateLimit inner addr ts).1 now addr).1 = false) := by
  obtain ⟨s1, s2, s3, s4, s5⟩ := checkRateLimit_spec inner now addr hnd
  refine ⟨s1, s2, ?_, ?_⟩
  · intro hzero
    rw [Bool.eq_false_iff]
    intro htrue
    have := s1.mp htrue
    omega
  · intro ts hq hpair hwin hts
    obtain ⟨r1, r2, r3, r4, r5⟩ :=
      runRateLimit_burst addr ts inner [] now hnd hq (by simpa using hpair)
        (by simpa using hwin) (by simp [hts])
    refine ⟨by rw [r1, hts], ?_⟩
    obtain ⟨f1, _, _, _, _⟩ :=
      checkRateLimit_spec (runRateLimit inner addr ts).1 now addr r3
    rw [Bool.eq_false_iff]
    intro htrue
    have hlt := f1.mp htrue
    rw [r2, r4] at hlt
    have hkeep : (([] ++ ts : List Nat)).filter
        (inWindow inner.window now) = ts := by
      apply List.filter_eq_self.mpr
      intro a ha
      simp only [List.nil_append] at ha
      simp only [inWindow, decide_eq_true_eq]
      exact hwin a ha
    rw [hkeep] at hlt
    rw [r5] at hlt
    omega

/-- C6 witness: with `max_qps = 2`, two calls in the same second are allowed
and the third is denied; and with `max_qps = 0` the first call is denied. -/
theorem c6_rate_limit_behavior_witness :
    ((checkRateLimit (RateLimiterInner.new 0 0) 5 7).1 = false) ∧
    ((runRateLimit (RateLimiterInner.new 2 0) 7 [10, 20]).2 =
      List.replicate 2 true ∧
    (checkRateLimit (runRateLimit (RateLimiterInner.new 2 0) 7 [10, 20]).1
      30 7).1 = false) := by
  constructor
  · exact (c6_rate_limit_behavior (RateLimiterInner.new 0 0) 5 7
      (by decide)).2.2.1 rfl
  · exact (c6_rate_limit_behavior (RateLimiterInner.new 2 0) 30 7
      (by decide)).2.2.2 [10, 20] (by decide) (by decide) (by decide)
      (by decide)

/-- C7: for a DNSKEY record K and a DS record whose algorithm matches,
whose key tag equals `compute_key_tag(K)` and whose digest is the hash (per
the DS digest type: SHA-256, SHA-384 or SHA-512, supplied as function
parameters standing for the sha2 crate) of K's lowercased canonical
wire-form owner name concatenated with K's RDATA wire form, `verify_ds`
succeeds; changing any one octet of the digest, or the algorithm, or the key
tag makes it return an error. -/
theorem c7_verify_ds_roundtrip
    (sha256f sha384f sha512f : List Nat → List Nat)
    (n dsOwner : Name) (ttl dsTtl : Nat)
    (zoneKey secureEntryPoint revoke : Bool) (algorithm : Nat)
    (publicKey : List Nat) (dt : DigestType) (tag : Nat) (digest : List Nat)
    (hdt : dt ≠ DigestType.sha1)
    (htag : computeKeyTag ⟨n, ttl, RData.dnskey zoneKey secureEntryPoint
      revoke algorithm publicKey⟩ = Except.ok tag)
    (hdig : digest =
      (match dt with
        | DigestType.sha256 => sha256f
        | DigestType.sha384 => sha384f
        | DigestType.sha512 => sha512f
        | DigestType.sha1 => id)
        ((Name.toLowercase n).wireFormat ++
          dnskeyRdataWire zoneKey secureEntryPoint revoke algorithm
            publicKey)) :
    verifyDS sha256f sha384f sha512f
        ⟨dsOwner, dsTtl, RData.ds tag algorithm dt digest⟩
        ⟨n, ttl, RData.dnskey zoneKey secureEntryPoint revoke algorithm
          publicKey⟩ = Except.ok () ∧
    (∀ i b, ∀ hi : i < digest.length, b ≠ digest.get ⟨i, hi⟩ →
      verifyDS sha256f sha384f sha512f
        ⟨dsOwner, dsTtl, RData.ds tag algorithm dt (digest.set i b)⟩
        ⟨n, ttl, RData.dnskey zoneKey secureEntryPoint revoke algorithm
          publicKey⟩ = Except.error "DS digest mismatch") ∧
    (∀ a2, a2 ≠ algorithm →
      verifyDS sha256f sha384f sha512f
        ⟨dsOwner, dsTtl, RData.ds tag a2 dt digest⟩
        ⟨n, ttl, RData.dnskey zoneKey secureEntryPoint revoke algorithm
          publicKey⟩ = Except.error "Algorithm mismatch") ∧
    (∀ t2, t2 ≠ tag →
      verifyDS sha256f sha384f sha512f
        ⟨dsOwner, dsTtl, RData.ds t2 algorithm dt digest⟩
        ⟨n, ttl, RData.dnskey zoneKey secureEntryPoint revoke algorithm
          publicKey⟩ = Except.error "Key tag mismatch") := by
  refine ⟨?_, ?_, ?_, ?_⟩
  · simp only [verifyDS]
    rw [if_neg (by simp), htag]
    simp only []
    rw [if_neg (by simp)]
    cases dt with
    | sha1 => exact absurd rfl hdt
    | sha256 =>
      simp only []
      rw [if_neg (by rw [hdig]; simp)]
    | sha384 =>
      simp only []
      rw [if_neg (by rw [hdig]; simp)]
    | sha512 =>
      simp only []
      rw [if_neg (by rw [hdig]; simp)]
  · intro i b hi hb
    have hne : ∀ f : List Nat → List Nat, digest =
        f ((Name.toLowercase n).wireFormat ++ dnskeyRdataWire zoneKey
          secureEntryPoint revoke algorithm publicKey) →
        f ((Name.toLowercase n).wireFormat ++ dnskeyRdataWire zoneKey
          secureEntryPoint revoke algorithm publicKey) ≠ digest.set i b := by
      intro f hf he
      apply hb
      have hds : digest = digest.set i b := hf.trans he
      have h3 : digest.get? i = some b := by
        conv_lhs => rw [hds]
        simp [List.getElem?_set_self, hi]
      have h4 : digest.get? i = some (digest.get ⟨i, hi⟩) := by
        simp [List.getElem?_eq_getElem hi]
      exact (Option.some.inj (h4.symm.trans h3)).symm
    simp only [verifyDS]
    rw [if_neg (by simp), htag]
    simp only []
    rw [if_neg (by simp)]
    cases dt with
    | sha1 => exact absurd rfl hdt
    | sha256 =>
      simp only []
      rw [if_pos (hne sha256f (by simpa using hdig))]
    | sha384 =>
      simp only []
      rw [if_pos (hne sha384f (by simpa using hdig))]
    | sha512 =>
      simp only []
      rw [if_pos (hne sha512f (by simpa using hdig))]
  · intro a2 ha
    simp only [verifyDS]
    rw [if_pos ha]
  · intro t2 ht
    simp only [verifyDS]
    rw [if_neg (by simp), htag]
    simp only []
    rw [if_pos ht]

/-- C7 witness: the round-trip success at a concrete DNSKEY with the hash
functions instantiated. -/
theorem c7_verify_ds_roundtrip_witness :
    verifyDS (fun l => l) (fun l => l) (fun l => l)
      ⟨⟨["a"]⟩, 300, RData.ds 1290 8 DigestType.sha256
        ((Name.toLowercase ⟨["a"]⟩).wireFormat ++
          dnskeyRdataWire true false false 8 [1, 2])⟩
      ⟨⟨["a"]⟩, 300, RData.dnskey true false false 8 [1, 2]⟩ =
      Except.ok () :=
  (c7_verify_ds_roundtrip (fun l => l) (fun l => l) (fun l => l)
    ⟨["a"]⟩ ⟨["a"]⟩ 300 300 true false false 8 [1, 2] DigestType.sha256 1290
    ((Name.toLowercase ⟨["a"]⟩).wireFormat ++
      dnskeyRdataWire true false false 8 [1, 2])
    (by decide) (by rfl) rfl).1

end Lrmdns
